import Mathlib

/-!
# Verification of dp-api-clients-go: the Cantabular GraphQL query pipeline

Shallow embedding of the Go sources of the `dp-api-clients-go` client
library: the Cantabular GraphQL query encoder (`QueryData.Encode`), the
query executor (`Client.postQuery`, `Client.queryUnmarshal`), the generic
graph response decode target (`cantabular/gql/data.go`), the zebedee
dataset landing page fetch with its bounded fan-out enrichment, the
identity `CheckRequest` authentication gate, the generic `Stream` helper
and the Cantabular codebook fetch.

Go's `encoding/json` is modelled by an explicit `Json` value type, a
total recursive-descent reader for the JSON subset exercised by these
clients (integer numbers, strings with the basic escapes, arrays,
objects), and per-struct decode functions that mirror `json.Unmarshal`
semantics for the concrete struct types appearing in the sources:
unknown object keys are ignored, absent keys and JSON `null` leave the
zero value, and a type mismatch is an error.
-/

namespace DpApiClients

/-! ## JSON values -/

/-- A JSON value. Numbers are integers: all numeric fields in the
graph responses (`totalCount`, `count`) are integral counts. -/
inductive Json where
  | null
  | bool (b : Bool)
  | num (n : Int)
  | str (s : String)
  | arr (items : List Json)
  | obj (fields : List (String × Json))

namespace Json

/-- Key lookup on an object; `none` when the value is not an object or
the key is absent. -/
def lookupKey : Json → String → Option Json
  | .obj fields, k => fields.lookup k
  | _, _ => none

/-- Whether an object value carries the given key. -/
def hasKey (j : Json) (k : String) : Bool := (j.lookupKey k).isSome

end Json

/-- Field fetch used by the struct decoders: a missing key behaves like
an explicit JSON `null` (both leave the Go zero value untouched). -/
def getField (fields : List (String × Json)) (k : String) : Json :=
  match fields.lookup k with
  | some v => v
  | none => Json.null

/-! ### A structural weight on JSON values

The gql decoders below recurse on an explicit fuel argument so that
they stay kernel-computable; `jsonWeight` is the fuel that provably
suffices for a given value. -/

mutual
/-- Structural weight of a JSON value: every proper subvalue weighs
strictly less. -/
def jsonWeight : Json → Nat
  | .arr items => 1 + weightItems items
  | .obj fields => 1 + weightFields fields
  | _ => 1
/-- Combined weight of array items. -/
def weightItems : List Json → Nat
  | [] => 1
  | j :: rest => 1 + jsonWeight j + weightItems rest
/-- Combined weight of object members. -/
def weightFields : List (String × Json) → Nat
  | [] => 1
  | kv :: rest => 1 + jsonWeight kv.2 + weightFields rest
end


/-! ## Reading raw JSON text (model of `json.Unmarshal` syntax checking)

A total fuel-indexed recursive descent over the character list.  The
fuel passed at top level is generous for the inputs these clients see;
running out of fuel is reported as an error, like any other malformed
input. -/

/-- JSON insignificant whitespace. -/
def isJsonWs (c : Char) : Bool := c = ' ' ∨ c = '\n' ∨ c = '\t' ∨ c = '\r'

/-- Drop leading insignificant whitespace. -/
def dropWs : List Char → List Char
  | [] => []
  | c :: cs => if isJsonWs c then dropWs cs else c :: cs

/-- ASCII decimal digit test. -/
def isDigitCh (c : Char) : Bool := '0' ≤ c ∧ c ≤ '9'

/-- Split off a maximal run of decimal digits. -/
def spanDigits : List Char → List Char × List Char
  | [] => ([], [])
  | c :: cs =>
    if isDigitCh c then
      let (ds, rest) := spanDigits cs
      (c :: ds, rest)
    else ([], c :: cs)

/-- Value of a digit run, most significant first. -/
def digitsVal (ds : List Char) : Nat :=
  ds.foldl (fun acc c => acc * 10 + (c.toNat - '0'.toNat)) 0

/-- Translate a one-character JSON escape; the unicode escape form is
not modelled (none of the client payloads use it). -/
def escapeChar (c : Char) : Option Char :=
  if c = 'n' then some '\n'
  else if c = 't' then some '\t'
  else if c = 'r' then some '\r'
  else if c = '"' ∨ c = '\\' ∨ c = '/' then some c
  else none

/-- Read the body of a JSON string, after the opening quote. -/
def readStringBody (acc : List Char) : List Char → Except String (String × List Char)
  | [] => .error "unexpected end of JSON string"
  | '"' :: rest => .ok (String.mk acc.reverse, rest)
  | '\\' :: e :: rest =>
    match escapeChar e with
    | some c => readStringBody (c :: acc) rest
    | none => .error "unsupported escape in JSON string"
  | c :: rest => readStringBody (c :: acc) rest

mutual

/-- Read one JSON value. -/
def readValue (fuel : Nat) (cs : List Char) : Except String (Json × List Char) :=
  match fuel with
  | 0 => .error "JSON input too deeply nested"
  | fuel + 1 =>
    match dropWs cs with
    | 'n' :: 'u' :: 'l' :: 'l' :: rest => .ok (.null, rest)
    | 't' :: 'r' :: 'u' :: 'e' :: rest => .ok (.bool true, rest)
    | 'f' :: 'a' :: 'l' :: 's' :: 'e' :: rest => .ok (.bool false, rest)
    | '"' :: rest => do
      let (s, rest) ← readStringBody [] rest
      .ok (.str s, rest)
    | '-' :: rest =>
      match spanDigits rest with
      | ([], _) => .error "invalid character after minus sign"
      | (ds, rest) => .ok (.num (-(digitsVal ds : Int)), rest)
    | '[' :: rest =>
      match dropWs rest with
      | ']' :: rest => .ok (.arr [], rest)
      | other => do
        let (items, rest) ← readItems fuel other
        .ok (.arr items, rest)
    | '{' :: rest =>
      match dropWs rest with
      | '}' :: rest => .ok (.obj [], rest)
      | other => do
        let (fields, rest) ← readMembers fuel other
        .ok (.obj fields, rest)
    | c :: rest =>
      if isDigitCh c then
        match spanDigits (c :: rest) with
        | (ds, rest) => .ok (.num (digitsVal ds : Int), rest)
      else .error "invalid character at start of JSON value"
    | [] => .error "unexpected end of JSON input"

/-- Read the comma-separated items of a non-empty array, up to and
including the closing bracket. -/
def readItems (fuel : Nat) (cs : List Char) : Except String (List Json × List Char) :=
  match fuel with
  | 0 => .error "JSON input too deeply nested"
  | fuel + 1 => do
    let (v, rest) ← readValue fuel cs
    match dropWs rest with
    | ',' :: rest => do
      let (vs, rest) ← readItems fuel rest
      .ok (v :: vs, rest)
    | ']' :: rest => .ok ([v], rest)
    | _ => .error "expected comma or closing bracket in JSON array"

/-- Read the members of a non-empty object, up to and including the
closing brace. -/
def readMembers (fuel : Nat) (cs : List Char) : Except String (List (String × Json) × List Char) :=
  match fuel with
  | 0 => .error "JSON input too deeply nested"
  | fuel + 1 =>
    match dropWs cs with
    | '"' :: rest => do
      let (k, rest) ← readStringBody [] rest
      match dropWs rest with
      | ':' :: rest => do
        let (v, rest) ← readValue fuel rest
        match dropWs rest with
        | ',' :: rest => do
          let (fs, rest) ← readMembers fuel rest
          .ok ((k, v) :: fs, rest)
        | '}' :: rest => .ok ([(k, v)], rest)
        | _ => .error "expected comma or closing brace in JSON object"
      | _ => .error "expected colon in JSON object"
    | _ => .error "expected string key in JSON object"

end

/-- Syntax-check and read a whole JSON document, rejecting trailing
data, as `json.Unmarshal` does. -/
def Json.parse (s : String) : Except String Json :=
  match readValue (2 * s.length + 8) s.data with
  | .error e => .error e
  | .ok (j, rest) =>
    match dropWs rest with
    | [] => .ok j
    | _ => .error "unexpected trailing data after JSON value"

/-! ## The generic graph response shape (`cantabular/gql/data.go`)

The Go structs `Variables`, `Search`, `Edge`, `Node` and `Categories`
are mutually recursive through slices, so they are embedded as one
mutual inductive family with accessor functions named after the Go
fields. -/

namespace Gql

/-- Go struct `gql.Variable` (`data.go`): the `variable: {name}` leaf. -/
structure Variable where
  Name : String
deriving Repr, DecidableEq

mutual
/-- Go struct `gql.Variables` (`data.go`): `edges`, `search`,
`categorySearch`. -/
inductive Variables where
  | mk (edges : List Edge) (search : Search) (categorySearch : Search)
/-- Go struct `gql.Search` (`data.go`): `edges`. -/
inductive Search where
  | mk (edges : List Edge)
/-- Go struct `gql.Edge` (`data.go`): `node`. -/
inductive Edge where
  | mk (node : Node)
/-- Go struct `gql.Node` (`data.go`): `name`, `code`, `label`,
`categories`, `mapFrom`, `filterOnly`, `variable`. -/
inductive Node where
  | mk (name : String) (code : String) (label : String) (categories : Categories)
       (mapFrom : List Variables) (filterOnly : String) (varb : Variable)
/-- Go struct `gql.Categories` (`data.go`): `totalCount`, `edges`. -/
inductive Categories where
  | mk (totalCount : Int) (edges : List Edge)
end

def Variables.Edges : Variables → List Edge
  | .mk e _ _ => e

def Variables.Search : Variables → Gql.Search
  | .mk _ s _ => s

def Variables.CategorySearch : Variables → Gql.Search
  | .mk _ _ cs => cs

def Search.Edges : Search → List Edge
  | .mk e => e

def Edge.Node : Edge → Gql.Node
  | .mk n => n

def Node.Name : Node → String
  | .mk n _ _ _ _ _ _ => n

def Node.Code : Node → String
  | .mk _ c _ _ _ _ _ => c

def Node.Label : Node → String
  | .mk _ _ l _ _ _ _ => l

def Node.Categories : Node → Gql.Categories
  | .mk _ _ _ c _ _ _ => c

def Node.MapFrom : Node → List Variables
  | .mk _ _ _ _ m _ _ => m

def Node.FilterOnly : Node → String
  | .mk _ _ _ _ _ f _ => f

def Node.Variable : Node → Gql.Variable
  | .mk _ _ _ _ _ _ v => v

def Categories.TotalCount : Categories → Int
  | .mk tc _ => tc

def Categories.Edges : Categories → List Edge
  | .mk _ e => e

/-- Go zero value of `gql.Categories`. -/
def Categories.zero : Categories := .mk 0 []

/-- Go zero value of `gql.Node`. -/
def Node.zero : Node := .mk "" "" "" Categories.zero [] "" ⟨""⟩

/-- Go zero value of `gql.Search`. -/
def Search.zero : Search := .mk []

/-- Go zero value of `gql.Variables`. -/
def Variables.zero : Variables := .mk [] Search.zero Search.zero

/-- Go struct `gql.RuleBase` (`data.go`): `isSourceOf`, `name`. -/
structure RuleBase where
  IsSourceOf : Variables
  Name : String

/-- Go struct `gql.DatasetRuleBase` (`data.go`): `ruleBase`. -/
structure DatasetRuleBase where
  RuleBase : Gql.RuleBase

/-- Go struct `gql.DatasetVariables` (`data.go`): `variables`. -/
structure DatasetVariables where
  Variables : Gql.Variables

end Gql

/-! ## Decoding JSON into the gql structs (model of `json.Unmarshal`)

Missing keys and `null` leave the Go zero value; unknown keys are
ignored (only the known keys are ever looked up); a type mismatch is
an error. -/

/-- Unmarshal a JSON value into a Go `string`. -/
def decodeString : Json → Except String String
  | .str s => .ok s
  | .null => .ok ""
  | _ => .error "cannot unmarshal JSON value into Go value of type string"

/-- Unmarshal a JSON value into a Go `int`. -/
def decodeInt : Json → Except String Int
  | .num n => .ok n
  | .null => .ok 0
  | _ => .error "cannot unmarshal JSON value into Go value of type int"

/-- Unmarshal a JSON value into `gql.Variable`. -/
def decodeVariable : Json → Except String Gql.Variable
  | .null => .ok ⟨""⟩
  | .obj fields => do
    let n ← decodeString (getField fields "name")
    .ok ⟨n⟩
  | _ => .error "cannot unmarshal JSON value into gql.Variable"

mutual

/-- Fueled unmarshalling of a JSON value into `gql.Node`; the fuel
only bounds recursion depth (`jsonWeight j` always suffices, see the
wrappers below). -/
def decodeNodeF : Nat → Json → Except String Gql.Node
  | 0, _ => .error "decode recursion limit exceeded"
  | _ + 1, .null => .ok Gql.Node.zero
  | fuel + 1, .obj fields => do
    let name ← decodeString (getField fields "name")
    let code ← decodeString (getField fields "code")
    let label ← decodeString (getField fields "label")
    let cats ← decodeCategoriesF fuel (getField fields "categories")
    let mapFrom ← decodeVariablesListF fuel (getField fields "mapFrom")
    let fOnly ← decodeString (getField fields "filterOnly")
    let varb ← decodeVariable (getField fields "variable")
    .ok (Gql.Node.mk name code label cats mapFrom fOnly varb)
  | _ + 1, _ => .error "cannot unmarshal JSON value into gql.Node"

/-- Fueled unmarshalling into `gql.Categories`. -/
def decodeCategoriesF : Nat → Json → Except String Gql.Categories
  | 0, _ => .error "decode recursion limit exceeded"
  | _ + 1, .null => .ok Gql.Categories.zero
  | fuel + 1, .obj fields => do
    let tc ← decodeInt (getField fields "totalCount")
    let es ← decodeEdgeListF fuel (getField fields "edges")
    .ok (Gql.Categories.mk tc es)
  | _ + 1, _ => .error "cannot unmarshal JSON value into gql.Categories"

/-- Fueled unmarshalling into `gql.Search`. -/
def decodeSearchF : Nat → Json → Except String Gql.Search
  | 0, _ => .error "decode recursion limit exceeded"
  | _ + 1, .null => .ok Gql.Search.zero
  | fuel + 1, .obj fields => do
    let es ← decodeEdgeListF fuel (getField fields "edges")
    .ok (Gql.Search.mk es)
  | _ + 1, _ => .error "cannot unmarshal JSON value into gql.Search"

/-- Fueled unmarshalling into `gql.Variables`. -/
def decodeVariablesF : Nat → Json → Except String Gql.Variables
  | 0, _ => .error "decode recursion limit exceeded"
  | _ + 1, .null => .ok Gql.Variables.zero
  | fuel + 1, .obj fields => do
    let es ← decodeEdgeListF fuel (getField fields "edges")
    let s ← decodeSearchF fuel (getField fields "search")
    let cs ← decodeSearchF fuel (getField fields "categorySearch")
    .ok (Gql.Variables.mk es s cs)
  | _ + 1, _ => .error "cannot unmarshal JSON value into gql.Variables"

/-- Fueled unmarshalling into `gql.Edge`. -/
def decodeEdgeF : Nat → Json → Except String Gql.Edge
  | 0, _ => .error "decode recursion limit exceeded"
  | _ + 1, .null => .ok (Gql.Edge.mk Gql.Node.zero)
  | fuel + 1, .obj fields => do
    let n ← decodeNodeF fuel (getField fields "node")
    .ok (Gql.Edge.mk n)
  | _ + 1, _ => .error "cannot unmarshal JSON value into gql.Edge"

/-- Fueled unmarshalling into `[]gql.Edge`. -/
def decodeEdgeListF : Nat → Json → Except String (List Gql.Edge)
  | 0, _ => .error "decode recursion limit exceeded"
  | _ + 1, .null => .ok []
  | fuel + 1, .arr items => decodeEdgeItemsF fuel items
  | _ + 1, _ => .error "cannot unmarshal JSON value into a slice of gql.Edge"

/-- Fueled unmarshalling of array items into `gql.Edge` values. -/
def decodeEdgeItemsF : Nat → List Json → Except String (List Gql.Edge)
  | 0, _ => .error "decode recursion limit exceeded"
  | _ + 1, [] => .ok []
  | fuel + 1, j :: rest => do
    let e ← decodeEdgeF fuel j
    let es ← decodeEdgeItemsF fuel rest
    .ok (e :: es)

/-- Fueled unmarshalling into `[]gql.Variables`. -/
def decodeVariablesListF : Nat → Json → Except String (List Gql.Variables)
  | 0, _ => .error "decode recursion limit exceeded"
  | _ + 1, .null => .ok []
  | fuel + 1, .arr items => decodeVariablesItemsF fuel items
  | _ + 1, _ => .error "cannot unmarshal JSON value into a slice of gql.Variables"

/-- Fueled unmarshalling of array items into `gql.Variables` values. -/
def decodeVariablesItemsF : Nat → List Json → Except String (List Gql.Variables)
  | 0, _ => .error "decode recursion limit exceeded"
  | _ + 1, [] => .ok []
  | fuel + 1, j :: rest => do
    let v ← decodeVariablesF fuel j
    let vs ← decodeVariablesItemsF fuel rest
    .ok (v :: vs)

end

/-- Unmarshal a JSON value into `gql.Node`. -/
def decodeNode (j : Json) : Except String Gql.Node := decodeNodeF (jsonWeight j) j

/-- Unmarshal a JSON value into `gql.Variables`. -/
def decodeVariables (j : Json) : Except String Gql.Variables :=
  decodeVariablesF (jsonWeight j) j


/-- Unmarshal a JSON value into `gql.RuleBase`. -/
def decodeRuleBase : Json → Except String Gql.RuleBase
  | .null => .ok ⟨Gql.Variables.zero, ""⟩
  | .obj fields => do
    let iso ← decodeVariables (getField fields "isSourceOf")
    let n ← decodeString (getField fields "name")
    .ok ⟨iso, n⟩
  | _ => .error "cannot unmarshal JSON value into gql.RuleBase"

/-- Unmarshal a JSON value into `gql.DatasetVariables`: the decode
target for the dimension-flavoured queries. -/
def decodeDatasetVariables : Json → Except String Gql.DatasetVariables
  | .null => .ok ⟨Gql.Variables.zero⟩
  | .obj fields => do
    let v ← decodeVariables (getField fields "variables")
    .ok ⟨v⟩
  | _ => .error "cannot unmarshal JSON value into gql.DatasetVariables"

/-- Unmarshal a JSON value into `gql.DatasetRuleBase`: the decode
target for the geography-flavoured queries. -/
def decodeDatasetRuleBase : Json → Except String Gql.DatasetRuleBase
  | .null => .ok ⟨⟨Gql.Variables.zero, ""⟩⟩
  | .obj fields => do
    let rb ← decodeRuleBase (getField fields "ruleBase")
    .ok ⟨rb⟩
  | _ => .error "cannot unmarshal JSON value into gql.DatasetRuleBase"

/-! ## The query encoder (`QueryData.Encode`, cantabular query file) -/

/-- Go struct `Filter`: `codes` then `variable`, in struct-field order. -/
structure Filter where
  Codes : List String
  Variable : String
deriving Repr, DecidableEq

/-- Go struct `QueryData`: the variable bag for every catalog query. -/
structure QueryData where
  Dataset : String
  Text : String
  Variables : List String
  Filters : List Filter
deriving Repr, DecidableEq

/-- Marshal a Go `[]string`. -/
def encodeStringList (l : List String) : Json := .arr (l.map .str)

/-- Marshal a `Filter` as `json.Marshal` does: the `codes` and
`variable` tags in struct-field order. -/
def encodeFilter (f : Filter) : Json :=
  .obj [("codes", encodeStringList f.Codes), ("variable", .str f.Variable)]

/-- Embedding of `QueryData.Encode`: builds the `vars` map with
`dataset`, `variables`, `text` and — only when `len(data.Filters) > 0`
— `filters`, then wraps it as `{"query": ..., "variables": ...}`.
Object keys appear in the sorted order `json.Marshal` gives Go maps.
The encoder error branch of the source is unreachable here: encoding a
map of strings, string slices and `Filter` values cannot fail. -/
def QueryData.Encode (data : QueryData) (query : String) : Json :=
  let vars : List (String × Json) :=
    if data.Filters.length > 0 then
      [("dataset", Json.str data.Dataset),
       ("filters", Json.arr (data.Filters.map encodeFilter)),
       ("text", Json.str data.Text),
       ("variables", encodeStringList data.Variables)]
    else
      [("dataset", Json.str data.Dataset),
       ("text", Json.str data.Text),
       ("variables", encodeStringList data.Variables)]
  Json.obj [("query", Json.str query), ("variables", Json.obj vars)]

/-! ## The query executor (`Client.postQuery`, `Client.queryUnmarshal`) -/

/-- An HTTP response as the clients observe it: a status code and the
bytes of the body. -/
structure HttpResponse where
  StatusCode : Nat
  Body : String
deriving Repr, DecidableEq

/-- Outcome of the `httpPost`/`httpGet` transport collaborator: either
a transport-level error or a response. -/
inductive TransportResult where
  | err (e : String)
  | res (r : HttpResponse)
deriving Repr, DecidableEq

/-- The structured errors surfaced by the clients (`dperrors.New`
wraps a message and a status code; the kinds below record which source
branch produced the error). -/
inductive ClientError where
  | requestFailed (status : Nat) (msg : String)
  | upstreamError (status : Nat) (payload : String)
  | decodeFailed (status : Nat) (msg : String) (body : String)
  | graphQLError (msg : String)
deriving Repr, DecidableEq

/-- Modelled from the spec: `Client.errorResponse` is not under `src/`;
per spec §4.2 a non-200 status "signals `UpstreamError` carrying the
status code and best-effort error payload". -/
def Client.errorResponse (r : HttpResponse) : ClientError :=
  .upstreamError r.StatusCode r.Body

/-- Result of `Client.postQuery`: the returned value and whether the
response body was closed before `postQuery` returned. -/
structure PostQueryOutcome where
  result : Except ClientError HttpResponse
  bodyClosed : Bool
deriving Repr

/-- Embedding of `Client.postQuery`: encode the query (which cannot
fail, see `QueryData.Encode`), POST it, wrap a transport error as a
500 `dperrors` error, and on a non-200 status close the response body
and return `errorResponse`; on 200 hand the open response back. -/
def Client.postQuery (data : QueryData) (query : String)
    (transport : TransportResult) : PostQueryOutcome :=
  match transport with
  | .err e =>
    ⟨.error (.requestFailed 500 ("failed to make GraphQL query: " ++ e)), false⟩
  | .res r =>
    if r.StatusCode ≠ 200 then ⟨.error (Client.errorResponse r), true⟩
    else ⟨.ok r, false⟩

/-- Embedding of `Client.queryUnmarshal`, generic in the decode target
the caller passes as `v`: run `postQuery`, read the body (reading an
in-memory body cannot fail in the model; the source's read-error
branch is transport-level IO) and unmarshal it.  Syntax errors and
struct-shape errors both surface as the source's single
"failed to unmarshal response body" 500 error.  No GraphQL-level
`error` field is inspected here. -/
def Client.queryUnmarshal {α : Type} (dec : Json → Except String α)
    (data : QueryData) (query : String) (transport : TransportResult) :
    Except ClientError α :=
  match (Client.postQuery data query transport).result with
  | .error e => .error e
  | .ok res =>
    match Json.parse res.Body with
    | .error e =>
      .error (.decodeFailed 500 ("failed to unmarshal response body: " ++ e) res.Body)
    | .ok j =>
      match dec j with
      | .error e =>
        .error (.decodeFailed 500 ("failed to unmarshal response body: " ++ e) res.Body)
      | .ok v => .ok v

/-! ## The static dataset query call

The `QueryStaticDataset` template selects
`dataset { table { dimensions { count variable categories } values error } }`;
the response struct and the per-query call site that checks the
GraphQL-level `error` field are not under `src/` and are modelled from
the spec (§4.3, §7). -/

/-- Generic slice unmarshalling: `null` is the empty slice. -/
def decodeListOf {α : Type} (dec : Json → Except String α) :
    Json → Except String (List α)
  | .null => .ok []
  | .arr items => items.mapM dec
  | _ => .error "cannot unmarshal JSON value into a Go slice"

/-- Modelled from the spec: the `variable { name label }` leaf of the
static dataset table (response struct not under `src/`). -/
structure TableVariable where
  Name : String
  Label : String
deriving Repr, DecidableEq

/-- Modelled from the spec: a `categories { code label }` entry of the
static dataset table (response struct not under `src/`). -/
structure TableCategory where
  Code : String
  Label : String
deriving Repr, DecidableEq

/-- Modelled from the spec: a `dimensions` entry of the static dataset
table (response struct not under `src/`). -/
structure TableDimension where
  Count : Int
  Variable : TableVariable
  Categories : List TableCategory
deriving Repr, DecidableEq

/-- Modelled from the spec: the `table` object of the static dataset
response, which carries the GraphQL-level `error` string field the
spec requires the call site to check (response struct not under
`src/`). -/
structure StaticDatasetTable where
  Dimensions : List TableDimension
  Values : List Int
  Error : String
deriving Repr, DecidableEq

/-- Modelled from the spec: the `dataset` object of the static dataset
response (response struct not under `src/`). -/
structure StaticDatasetDataset where
  Table : StaticDatasetTable
deriving Repr, DecidableEq

/-- Modelled from the spec: the `data` wrapper of the static dataset
response (response struct not under `src/`). -/
structure StaticDatasetQueryResponse where
  Dataset : StaticDatasetDataset
deriving Repr, DecidableEq

def decodeTableVariable : Json → Except String TableVariable
  | .null => .ok ⟨"", ""⟩
  | .obj fields => do
    let n ← decodeString (getField fields "name")
    let l ← decodeString (getField fields "label")
    .ok ⟨n, l⟩
  | _ => .error "cannot unmarshal JSON value into the table variable struct"

def decodeTableCategory : Json → Except String TableCategory
  | .null => .ok ⟨"", ""⟩
  | .obj fields => do
    let c ← decodeString (getField fields "code")
    let l ← decodeString (getField fields "label")
    .ok ⟨c, l⟩
  | _ => .error "cannot unmarshal JSON value into the table category struct"

def decodeTableDimension : Json → Except String TableDimension
  | .null => .ok ⟨0, ⟨"", ""⟩, []⟩
  | .obj fields => do
    let c ← decodeInt (getField fields "count")
    let v ← decodeTableVariable (getField fields "variable")
    let cats ← decodeListOf decodeTableCategory (getField fields "categories")
    .ok ⟨c, v, cats⟩
  | _ => .error "cannot unmarshal JSON value into the table dimension struct"

def decodeStaticDatasetTable : Json → Except String StaticDatasetTable
  | .null => .ok ⟨[], [], ""⟩
  | .obj fields => do
    let ds ← decodeListOf decodeTableDimension (getField fields "dimensions")
    let vs ← decodeListOf decodeInt (getField fields "values")
    let e ← decodeString (getField fields "error")
    .ok ⟨ds, vs, e⟩
  | _ => .error "cannot unmarshal JSON value into the static dataset table"

def decodeStaticDatasetDataset : Json → Except String StaticDatasetDataset
  | .null => .ok ⟨⟨[], [], ""⟩⟩
  | .obj fields => do
    let t ← decodeStaticDatasetTable (getField fields "table")
    .ok ⟨t⟩
  | _ => .error "cannot unmarshal JSON value into the static dataset object"

def decodeStaticDatasetQueryResponse : Json → Except String StaticDatasetQueryResponse
  | .null => .ok ⟨⟨⟨[], [], ""⟩⟩⟩
  | .obj fields => do
    let d ← decodeStaticDatasetDataset (getField fields "dataset")
    .ok ⟨d⟩
  | _ => .error "cannot unmarshal JSON value into the static dataset response"

/-- Modelled from the spec: the top-level `{"data": ...}` wrapper of a
GraphQL response body (§6: "JSON response with top-level `data`").  -/
structure GraphQLResponseBody where
  Data : StaticDatasetQueryResponse
deriving Repr, DecidableEq

def decodeGraphQLResponseBody : Json → Except String GraphQLResponseBody
  | .null => .ok ⟨⟨⟨⟨[], [], ""⟩⟩⟩⟩
  | .obj fields => do
    let d ← decodeStaticDatasetQueryResponse (getField fields "data")
    .ok ⟨d⟩
  | _ => .error "cannot unmarshal JSON value into the GraphQL response body"

/-- Modelled from the spec: the static dataset query call site (not
under `src/`).  Per §4.3/§7 it runs the generic pipeline and then
"checks for a `error` string field" explicitly, signalling
`GraphQLError` carrying the message, "since a 200 transport status
does not guarantee a valid GraphQL result".  The fixed query template
string is operationally inert (`Encode` treats it opaquely), so it is
a parameter here. -/
def Client.StaticDatasetQueryCall (data : QueryData) (query : String)
    (transport : TransportResult) : Except ClientError GraphQLResponseBody :=
  match Client.queryUnmarshal decodeGraphQLResponseBody data query transport with
  | .error e => .error e
  | .ok resp =>
    if resp.Data.Dataset.Table.Error ≠ "" then
      .error (.graphQLError resp.Data.Dataset.Table.Error)
    else .ok resp

/-! ## The dataset-list normalizer -/

/-- Modelled from the spec: the dataset-list normalizer is not under
`src/` (only its test is).  Per §4.4 it "read[s] `edges[].node.name`
at the top variables level" and returns the "ordered list of names,
order preserved from response". -/
def ListDatasets (resp : Gql.DatasetVariables) : List String :=
  resp.Variables.Edges.map (fun e => e.Node.Name)

/-! ## The codebook fetch (`cantabular/codebook.go`) -/

/-- Modelled from the spec: `GetCodebookRequest` is not under `src/`;
`GetCodebook` reads its dataset name, categories flag and variable
names to build the URL. -/
structure GetCodebookRequest where
  DatasetName : String
  Categories : Bool
  Variables : List String
deriving Repr, DecidableEq

/-- Modelled from the spec: a codebook entry; `Codebook` is
`[]Variable` (`codebook.go` line 15); only a variable's name and label
matter to the claims. -/
structure CodebookVariable where
  Name : String
  Label : String
deriving Repr, DecidableEq

/-- Modelled from the spec: the `GetCodebookResponse` struct (not
under `src/`) carrying the codebook. -/
structure GetCodebookResponse where
  Codebook : List CodebookVariable
deriving Repr, DecidableEq

def decodeCodebookVariable : Json → Except String CodebookVariable
  | .null => .ok ⟨"", ""⟩
  | .obj fields => do
    let n ← decodeString (getField fields "name")
    let l ← decodeString (getField fields "label")
    .ok ⟨n, l⟩
  | _ => .error "cannot unmarshal JSON value into cantabular.Variable"

def decodeGetCodebookResponse : Json → Except String GetCodebookResponse
  | .null => .ok ⟨[]⟩
  | .obj fields => do
    let cb ← decodeListOf decodeCodebookVariable (getField fields "codebook")
    .ok ⟨cb⟩
  | _ => .error "cannot unmarshal JSON value into cantabular.GetCodebookResponse"

/-- Embedding of `Client.GetCodebook` (`codebook.go` lines 18-69):
build the URL, GET it, fail on transport errors and non-200 statuses,
replace a zero-byte body with the placeholder text
`[response body empty]`, then unmarshal. -/
def Client.GetCodebook (req : GetCodebookRequest) (transport : TransportResult) :
    Except ClientError GetCodebookResponse :=
  match transport with
  | .err e =>
    .error (.requestFailed 500 ("failed to get response from Cantabular API: " ++ e))
  | .res res =>
    if res.StatusCode ≠ 200 then .error (Client.errorResponse res)
    else
      let b := if res.Body.length = 0 then "[response body empty]" else res.Body
      match Json.parse b with
      | .error e =>
        .error (.decodeFailed 500 ("failed to unmarshal response body: " ++ e) b)
      | .ok j =>
        match decodeGetCodebookResponse j with
        | .error e =>
          .error (.decodeFailed 500 ("failed to unmarshal response body: " ++ e) b)
        | .ok resp => .ok resp

/-! ## The generic `Stream` helper (stream package) -/

/-- Embedding of `Stream`'s observable outcome (stream file lines
19-58): after the `wg.Wait()` join the two goroutines have deposited
their errors in `errTransform` and `errConsume`, and lines 48-57
combine them exactly as below (`%v`/`%w` render the wrapped error's
message). -/
def Stream (errTransform errConsume : Option String) : Option String :=
  match errTransform, errConsume with
  | some et, some ec =>
    some ("transform error: " ++ et ++ ", consumer error: " ++ ec)
  | some et, none => some ("transform error: " ++ et)
  | none, some ec => some ("consumer error: " ++ ec)
  | none, none => none

/-! ## Identity `CheckRequest` (`identity/authentication.go`) -/

/-- Header key for the Florence user token (`common.FlorenceHeaderKey`
from go-ns, an external collaborator; the exact string is immaterial,
header fetches are by key). -/
def FlorenceHeaderKey : String := "X-Florence-Token"

/-- Header key for the service auth token (`common.AuthHeaderKey`). -/
def AuthHeaderKey : String := "Authorization"

/-- Header key for the user identity (`common.UserHeaderKey`). -/
def UserHeaderKey : String := "User-Identity"

/-- Context key for the user identity (`common.UserIdentityKey`). -/
def UserIdentityKey : String := "User-Identity-Value"

/-- Context key for the caller identity (`common.CallerIdentityKey`). -/
def CallerIdentityKey : String := "Caller-Identity-Value"

/-- Fetch a header value; absent headers read as the empty string,
like `http.Header.Get`. -/
def headerGet (headers : List (String × String)) (k : String) : String :=
  (headers.lookup k).getD ""

/-- An incoming request: its headers and its context, the latter
modelled as the list of key/value pairs `context.WithValue` has
attached. -/
structure Request where
  Headers : List (String × String)
  Ctx : List (String × String)
deriving Repr, DecidableEq

/-- The identity response struct (`common.IdentityResponse` from
go-ns): the authenticated identifier. -/
structure IdentityResponse where
  Identifier : String
deriving Repr, DecidableEq

def decodeIdentityResponse : Json → Except String IdentityResponse
  | .null => .ok ⟨""⟩
  | .obj fields => do
    let i ← decodeString (getField fields "identifier")
    .ok ⟨i⟩
  | _ => .error "cannot unmarshal JSON value into common.IdentityResponse"

/-- Embedding of `unmarshalIdentityResponse`
(`identity/authentication.go` lines 145-159). -/
def unmarshalIdentityResponse (body : String) : Except String IdentityResponse :=
  match Json.parse body with
  | .error e => .error e
  | .ok j => decodeIdentityResponse j

/-- What `CheckRequest` hands back: the (possibly nil) context, the
status code, and the (possibly nil) error. -/
structure CheckRequestResult where
  ctx : Option (List (String × String))
  status : Nat
  err : Option String
deriving Repr, DecidableEq

/-- Embedding of `IdentityClient.CheckRequest`
(`identity/authentication.go` lines 38-115), paired with the number of
outbound HTTP calls performed.  When neither token header is set it
returns the request's own context, 200 and no error without calling
the auth API; otherwise it performs one outbound call and proceeds per
the source. -/
def IdentityClient.CheckRequest (req : Request) (api : TransportResult) :
    CheckRequestResult × Nat :=
  let florenceToken := headerGet req.Headers FlorenceHeaderKey
  let authToken := headerGet req.Headers AuthHeaderKey
  let isUserReq := florenceToken.length > 0
  let isServiceReq := authToken.length > 0
  if ¬isUserReq ∧ ¬isServiceReq then (⟨some req.Ctx, 200, none⟩, 0)
  else
    match api with
    | .err e => (⟨none, 0, some e⟩, 1)
    | .res resp =>
      if resp.StatusCode ≠ 200 then (⟨none, resp.StatusCode, none⟩, 1)
      else
        match unmarshalIdentityResponse resp.Body with
        | .error e => (⟨none, 0, some e⟩, 1)
        | .ok idResp =>
          let userIdentity :=
            if isUserReq then idResp.Identifier
            else headerGet req.Headers UserHeaderKey
          (⟨some ((CallerIdentityKey, idResp.Identifier) ::
                  (UserIdentityKey, userIdentity) :: req.Ctx), 200, none⟩, 1)

/-! ## Zebedee `GetDatasetLandingPage` (zebedee part of `codebook.go`)

The zebedee data structs are not under `src/`; `Related` and the four
related-page lists are modelled from the fields the embedded source
touches (`dlp.RelatedDatasets`, `dlp.RelatedDocuments`,
`dlp.RelatedMethodology`, `dlp.RelatedMethodologyArticle`,
`Related.URI`, `Related.Title`).

Go's `json.Unmarshal` records the first type mismatch it meets but
keeps decoding the remaining fields, so on a type error it returns
both a partially populated struct and an error; the lenient decoders
below mirror that pair-valued behaviour. -/

/-- A related-page entry (zebedee `Related` struct, modelled from
usage: `URI` and `Title`). -/
structure Related where
  URI : String
  Title : String
deriving Repr, DecidableEq

/-- The zebedee dataset landing page, restricted to the four
related-page lists the embedded source reads and writes. -/
structure DatasetLandingPage where
  RelatedDatasets : List Related
  RelatedDocuments : List Related
  RelatedMethodology : List Related
  RelatedMethodologyArticle : List Related
deriving Repr, DecidableEq

/-- Go zero value of `DatasetLandingPage`. -/
def DatasetLandingPage.zero : DatasetLandingPage := ⟨[], [], [], []⟩

/-- Keep the first recorded error, like `decodeState.saveError`. -/
def firstErr (a b : Option String) : Option String :=
  match a with
  | some e => some e
  | none => b

/-- Lenient string field decode: a mismatch records an error and
leaves the zero value. -/
def decodeStringLenient : Json → String × Option String
  | .str s => (s, none)
  | .null => ("", none)
  | _ => ("", some "cannot unmarshal JSON value into Go value of type string")

/-- Lenient decode of a `Related` entry. -/
def decodeRelatedLenient (j : Json) : Related × Option String :=
  match j with
  | .null => (⟨"", ""⟩, none)
  | .obj fields =>
    let (u, e1) := decodeStringLenient (getField fields "uri")
    let (t, e2) := decodeStringLenient (getField fields "title")
    (⟨u, t⟩, firstErr e1 e2)
  | _ => (⟨"", ""⟩, some "cannot unmarshal JSON value into zebedee.Related")

/-- Lenient decode of a `[]Related` field: a mismatched element or
field records the first error but decoding continues. -/
def decodeRelatedListLenient (j : Json) : List Related × Option String :=
  match j with
  | .null => ([], none)
  | .arr items =>
    items.foldr
      (fun it (acc : List Related × Option String) =>
        let (r, e) := decodeRelatedLenient it
        (r :: acc.1, firstErr e acc.2))
      ([], none)
  | _ => ([], some "cannot unmarshal JSON value into a slice of zebedee.Related")

/-- Lenient unmarshal of a `DatasetLandingPage`: all four lists are
decoded even when one of them records a type error, and the first
error is reported alongside the (partially) populated struct. -/
def unmarshalDatasetLandingPage (j : Json) : DatasetLandingPage × Option String :=
  match j with
  | .null => (DatasetLandingPage.zero, none)
  | .obj fields =>
    let (rd, e1) := decodeRelatedListLenient (getField fields "relatedDatasets")
    let (rdoc, e2) := decodeRelatedListLenient (getField fields "relatedDocuments")
    let (rm, e3) := decodeRelatedListLenient (getField fields "relatedMethodology")
    let (rma, e4) := decodeRelatedListLenient (getField fields "relatedMethodologyArticle")
    (⟨rd, rdoc, rm, rma⟩, firstErr e1 (firstErr e2 (firstErr e3 e4)))
  | _ => (DatasetLandingPage.zero,
          some "cannot unmarshal JSON value into zebedee.DatasetLandingPage")

/-- Overwrite each entry's title with the page title fetched for its
URI (`element[i].Title = t.Title`; a failed `GetPageTitle` is
swallowed and yields the zero `PageTitle`, folded into `titleOf`). -/
def enrichRelated (titleOf : String → String) (l : List Related) : List Related :=
  l.map (fun r => ⟨r.URI, titleOf r.URI⟩)

/-- The landing page after the fan-out enrichment has joined. -/
def enrichTitles (titleOf : String → String) (dlp : DatasetLandingPage) :
    DatasetLandingPage :=
  ⟨enrichRelated titleOf dlp.RelatedDatasets,
   enrichRelated titleOf dlp.RelatedDocuments,
   enrichRelated titleOf dlp.RelatedMethodology,
   enrichRelated titleOf dlp.RelatedMethodologyArticle⟩

/-- Embedding of `Client.GetDatasetLandingPage` (zebedee part of
`codebook.go`, lines 163-203): `fetch` is the outcome of `c.get`,
`titleOf` the per-URI outcome of `GetPageTitle` (its error is
swallowed at the call site).  On a fetch error the zero landing page
is returned with the error; on an unmarshal error the source does
`return dlp, err`, handing back whatever was decoded; otherwise the
enriched page is returned after the join. -/
def Client.GetDatasetLandingPage (fetch : Except String String)
    (titleOf : String → String) : DatasetLandingPage × Option String :=
  match fetch with
  | .error e => (DatasetLandingPage.zero, some e)
  | .ok b =>
    match Json.parse b with
    | .error e => (DatasetLandingPage.zero, some e)
    | .ok j =>
      match unmarshalDatasetLandingPage j with
      | (dlp, some e) => (dlp, some e)
      | (dlp, none) => (enrichTitles titleOf dlp, none)

/-! ## The bounded fan-out (zebedee part of `codebook.go`, lines 182-200)

The enrichment loop takes a buffered semaphore channel of capacity 10
before spawning each goroutine (`sem <- 1`), each goroutine releases
it and calls `wg.Done()` when it finishes, and the caller blocks on
`wg.Wait()`.  The loop, the units and the join are embedded as a
transition system over the `N` flattened related-page entries; `val i`
is the title unit `i` writes into its own slot (a unit whose
`GetPageTitle` fails writes the zero title — the per-unit outcome is
an arbitrary oracle, so no unit's failure affects any other
transition). -/

/-- State of the fan-out: how many units the loop has spawned, which
spawned units are still running (each holds one semaphore token),
which slots have been written, and whether `wg.Wait()` has returned. -/
structure FanoutState where
  spawned : Nat
  active : List Nat
  titles : Nat → Option String
  returned : Bool

/-- One scheduler step of the fan-out: the loop spawns the next unit
when the semaphore has a free slot, any running unit may finish
(writing its own slot and releasing its token), and the call returns
from `wg.Wait()` once the loop is done and the wait-group counter is
zero. -/
inductive FanStep (N : Nat) (val : Nat → String) : FanoutState → FanoutState → Prop where
  | spawn (s : FanoutState) (hlt : s.spawned < N) (hcap : s.active.length < 10) :
      FanStep N val s ⟨s.spawned + 1, s.spawned :: s.active, s.titles, s.returned⟩
  | finish (s : FanoutState) (i : Nat) (hi : i ∈ s.active) :
      FanStep N val s
        ⟨s.spawned, s.active.erase i,
         fun k => if k = i then some (val i) else s.titles k, s.returned⟩
  | ret (s : FanoutState) (hs : s.spawned = N) (ha : s.active = [])
      (hr : s.returned = false) :
      FanStep N val s ⟨s.spawned, s.active, s.titles, true⟩

/-- The fan-out's initial state: nothing spawned, nothing written. -/
def FanInit : FanoutState := ⟨0, [], fun _ => none, false⟩

/-- States the fan-out can reach from its start. -/
def FanReachable (N : Nat) (val : Nat → String) (s : FanoutState) : Prop :=
  Relation.ReflTransGen (FanStep N val) FanInit s

/-- Termination measure of the fan-out: strictly decreases on every
step, so every maximal execution is finite. -/
def fanMeasure (N : Nat) (s : FanoutState) : Nat :=
  2 * (N - s.spawned) + s.active.length + (if s.returned then 0 else 1)

/-- Inductive invariant of the fan-out: the semaphore bound, the
bookkeeping tying spawned/running units to written slots, and the
join condition on return. -/
def FanInv (N : Nat) (val : Nat → String) (s : FanoutState) : Prop :=
  s.active.length ≤ 10 ∧
  s.active.Nodup ∧
  (∀ i ∈ s.active, i < s.spawned) ∧
  s.spawned ≤ N ∧
  (∀ i, i < s.spawned → i ∉ s.active → s.titles i = some (val i)) ∧
  (∀ i, s.spawned ≤ i → s.titles i = none) ∧
  (s.returned = true → s.spawned = N ∧ s.active = [])

/-! ## Response shapes of the six catalog queries

One predicate per query template in the cantabular query file,
transcribed from the fields each GraphQL selection set produces at the
`dataset` level of the response.  Every selected field may also come
back as JSON `null`, and a field the query did not select is absent,
so each predicate accepts `null` and constrains an object's keys to
the selected set and each selected key's value to its GraphQL type. -/

/-- A string-typed GraphQL field value. -/
def StrShape (j : Json) : Prop := j = .null ∨ ∃ s, j = .str s

/-- An integer-typed GraphQL field value (`totalCount`, `count`). -/
def IntShape (j : Json) : Prop := j = .null ∨ ∃ n, j = .num n

/-- An `edges` list entry: `{ node: ... }`. -/
def EdgeShape (nodeShape : Json → Prop) (j : Json) : Prop :=
  j = .null ∨ ∃ fields, j = .obj fields ∧ (∀ kv ∈ fields, kv.1 = "node") ∧
    nodeShape (getField fields "node")

/-- An `edges` value: a list of edges. -/
def EdgeListShape (nodeShape : Json → Prop) (j : Json) : Prop :=
  j = .null ∨ ∃ items, j = .arr items ∧ ∀ x ∈ items, EdgeShape nodeShape x

/-- A node whose selected fields are all strings (the `mapFrom` inner
nodes: `filterOnly label name`, or `name label`). -/
def LeafNodeShape (allowed : List String) (j : Json) : Prop :=
  j = .null ∨ ∃ fields, j = .obj fields ∧ (∀ kv ∈ fields, kv.1 ∈ allowed) ∧
    ∀ kv ∈ fields, StrShape kv.2

/-- One element of a `mapFrom` list: `edges` over leaf nodes, plus the
`totalCount` sibling the dimension-search template also selects. -/
def MapFromVarsShape (j : Json) : Prop :=
  j = .null ∨ ∃ fields, j = .obj fields ∧
    (∀ kv ∈ fields, kv.1 ∈ (["edges", "totalCount"] : List String)) ∧
    EdgeListShape (LeafNodeShape ["filterOnly", "label", "name"]) (getField fields "edges") ∧
    IntShape (getField fields "totalCount")

/-- A `mapFrom` value: a list of variables objects. -/
def MapFromShape (j : Json) : Prop :=
  j = .null ∨ ∃ items, j = .arr items ∧ ∀ x ∈ items, MapFromVarsShape x

/-- A `categories { totalCount }` value. -/
def CatTotShape (j : Json) : Prop :=
  j = .null ∨ ∃ fields, j = .obj fields ∧ (∀ kv ∈ fields, kv.1 = "totalCount") ∧
    IntShape (getField fields "totalCount")

/-- The node selected by the dimension queries:
`name mapFrom label categories{totalCount}`. -/
def DimNodeShape (j : Json) : Prop :=
  j = .null ∨ ∃ fields, j = .obj fields ∧
    (∀ kv ∈ fields, kv.1 ∈ (["name", "mapFrom", "label", "categories"] : List String)) ∧
    StrShape (getField fields "name") ∧ StrShape (getField fields "label") ∧
    MapFromShape (getField fields "mapFrom") ∧ CatTotShape (getField fields "categories")

/-- An object carrying only an `edges` list of the given nodes
(`variables`, `search` and `categorySearch` values all take this
form). -/
def EdgesOnlyShape (nodeShape : Json → Prop) (j : Json) : Prop :=
  j = .null ∨ ∃ fields, j = .obj fields ∧ (∀ kv ∈ fields, kv.1 = "edges") ∧
    EdgeListShape nodeShape (getField fields "edges")

/-- Dataset-level response of `QueryDimensions`:
`{ variables { edges { node ... } } }`. -/
def DimensionsResponseShape (j : Json) : Prop :=
  j = .null ∨ ∃ fields, j = .obj fields ∧ (∀ kv ∈ fields, kv.1 = "variables") ∧
    EdgesOnlyShape DimNodeShape (getField fields "variables")

/-- Dataset-level response of `QueryDimensionsByName`: the selection
set is identical to `QueryDimensions` (only the `names` argument
differs), so the response shape coincides. -/
def DimensionsByNameResponseShape : Json → Prop := DimensionsResponseShape

/-- The `ruleBase` object of `QueryGeographyDimensions`:
`{ name isSourceOf { edges ... } }`. -/
def GeoRuleBaseShape (j : Json) : Prop :=
  j = .null ∨ ∃ fields, j = .obj fields ∧
    (∀ kv ∈ fields, kv.1 ∈ (["name", "isSourceOf"] : List String)) ∧
    StrShape (getField fields "name") ∧
    EdgesOnlyShape DimNodeShape (getField fields "isSourceOf")

/-- Dataset-level response of `QueryGeographyDimensions`. -/
def GeographyResponseShape (j : Json) : Prop :=
  j = .null ∨ ∃ fields, j = .obj fields ∧ (∀ kv ∈ fields, kv.1 = "ruleBase") ∧
    GeoRuleBaseShape (getField fields "ruleBase")

/-- The node selected by `QueryDimensionsSearch`:
`name label mapFrom{totalCount edges{node{name label}}}`. -/
def SearchNodeShape (j : Json) : Prop :=
  j = .null ∨ ∃ fields, j = .obj fields ∧
    (∀ kv ∈ fields, kv.1 ∈ (["name", "label", "mapFrom"] : List String)) ∧
    StrShape (getField fields "name") ∧ StrShape (getField fields "label") ∧
    MapFromShape (getField fields "mapFrom")

/-- The `variables` object of `QueryDimensionsSearch`: only a `search`
result is selected. -/
def SearchVariablesShape (j : Json) : Prop :=
  j = .null ∨ ∃ fields, j = .obj fields ∧ (∀ kv ∈ fields, kv.1 = "search") ∧
    EdgesOnlyShape SearchNodeShape (getField fields "search")

/-- Dataset-level response of `QueryDimensionsSearch`. -/
def DimensionsSearchResponseShape (j : Json) : Prop :=
  j = .null ∨ ∃ fields, j = .obj fields ∧ (∀ kv ∈ fields, kv.1 = "variables") ∧
    SearchVariablesShape (getField fields "variables")

/-- The `variable` object selected by `QueryAreasByArea`:
`{ mapFrom{...} name }`. -/
def AreaVariableShape (j : Json) : Prop :=
  j = .null ∨ ∃ fields, j = .obj fields ∧
    (∀ kv ∈ fields, kv.1 ∈ (["mapFrom", "name"] : List String)) ∧
    MapFromShape (getField fields "mapFrom") ∧ StrShape (getField fields "name")

/-- The node selected by `QueryAreasByArea`:
`code label variable{...}`. -/
def AreaNodeShape (j : Json) : Prop :=
  j = .null ∨ ∃ fields, j = .obj fields ∧
    (∀ kv ∈ fields, kv.1 ∈ (["code", "label", "variable"] : List String)) ∧
    StrShape (getField fields "code") ∧ StrShape (getField fields "label") ∧
    AreaVariableShape (getField fields "variable")

/-- The `isSourceOf` object of `QueryAreasByArea`: only
`categorySearch` is selected. -/
def AreaIsSourceOfShape (j : Json) : Prop :=
  j = .null ∨ ∃ fields, j = .obj fields ∧ (∀ kv ∈ fields, kv.1 = "categorySearch") ∧
    EdgesOnlyShape AreaNodeShape (getField fields "categorySearch")

/-- The `ruleBase` object of `QueryAreasByArea`. -/
def AreaRuleBaseShape (j : Json) : Prop :=
  j = .null ∨ ∃ fields, j = .obj fields ∧ (∀ kv ∈ fields, kv.1 = "isSourceOf") ∧
    AreaIsSourceOfShape (getField fields "isSourceOf")

/-- Dataset-level response of `QueryAreasByArea`. -/
def AreasResponseShape (j : Json) : Prop :=
  j = .null ∨ ∃ fields, j = .obj fields ∧ (∀ kv ∈ fields, kv.1 = "ruleBase") ∧
    AreaRuleBaseShape (getField fields "ruleBase")

/-- A GraphQL list value whose elements all satisfy the given shape. -/
def ListShape (elemShape : Json → Prop) (j : Json) : Prop :=
  j = .null ∨ ∃ items, j = .arr items ∧ ∀ x ∈ items, elemShape x

/-- The `variable { name label }` object of `QueryStaticDataset`. -/
def TableVariableShape (j : Json) : Prop :=
  j = .null ∨ ∃ fields, j = .obj fields ∧
    (∀ kv ∈ fields, kv.1 ∈ (["name", "label"] : List String)) ∧
    StrShape (getField fields "name") ∧ StrShape (getField fields "label")

/-- A `categories { code label }` entry of `QueryStaticDataset`. -/
def TableCategoryShape (j : Json) : Prop :=
  j = .null ∨ ∃ fields, j = .obj fields ∧
    (∀ kv ∈ fields, kv.1 ∈ (["code", "label"] : List String)) ∧
    StrShape (getField fields "code") ∧ StrShape (getField fields "label")

/-- A `dimensions` entry of `QueryStaticDataset`. -/
def TableDimensionShape (j : Json) : Prop :=
  j = .null ∨ ∃ fields, j = .obj fields ∧
    (∀ kv ∈ fields, kv.1 ∈ (["count", "variable", "categories"] : List String)) ∧
    IntShape (getField fields "count") ∧
    TableVariableShape (getField fields "variable") ∧
    ListShape TableCategoryShape (getField fields "categories")

/-- The `table` object of `QueryStaticDataset` (and of
`QueryDimensionOptions`, whose selection differs only by dropping
`count`): `dimensions values error`. -/
def TableShape (j : Json) : Prop :=
  j = .null ∨ ∃ fields, j = .obj fields ∧
    (∀ kv ∈ fields, kv.1 ∈ (["dimensions", "values", "error"] : List String)) ∧
    ListShape TableDimensionShape (getField fields "dimensions") ∧
    ListShape IntShape (getField fields "values") ∧
    StrShape (getField fields "error")

/-- Dataset-level response of `QueryStaticDataset` (the table-flavoured
catalog query): only `table` is selected. -/
def StaticDatasetResponseShape (j : Json) : Prop :=
  j = .null ∨ ∃ fields, j = .obj fields ∧ (∀ kv ∈ fields, kv.1 = "table") ∧
    TableShape (getField fields "table")

/-! ## Concrete sample values used by the theorems -/

/-- The sample dataset-list response of the repository's test
(`dataset_list_test.go`): two dataset names, in order. -/
def sampleDatasetListJson : Json :=
  .obj [("variables", .obj [("edges", .arr
    [ .obj [("node", .obj [("name", .str "dataset 1")])],
      .obj [("node", .obj [("name", .str "dataset 2")])]])])]

/-- The gql value the sample dataset-list response decodes to. -/
def sampleDatasetListDecoded : Gql.DatasetVariables :=
  ⟨.mk [ .mk (.mk "dataset 1" "" "" .zero [] "" ⟨""⟩),
         .mk (.mk "dataset 2" "" "" .zero [] "" ⟨""⟩)] .zero .zero⟩

/-- A 200 body whose GraphQL `error` field is set: used against the
static dataset query call. -/
def sampleGraphQLErrorBody : String :=
  "\x7b\x22data\x22:\x7b\x22dataset\x22:\x7b\x22table\x22:\x7b\x22error\x22:\x22oops\x22\x7d\x7d\x7d\x7d"

/-- A landing-page body whose `relatedDocuments` field has the wrong
JSON type while `relatedDatasets` decodes fine: `json.Unmarshal`
reports the type error but still populates the rest. -/
def sampleBadLandingPageBody : String :=
  "\x7b\x22relatedDatasets\x22:[\x7b\x22uri\x22:\x22u1\x22\x7d],\x22relatedDocuments\x22:7\x7d"


/-! # Theorems for the specification claims -/

/-- C1: for every `QueryData` record and query template, the encoded
payload's `variables` object always carries the `dataset`, `variables`
and `text` keys, carries `filters` exactly when the `Filters` sequence
is non-empty (absent entirely otherwise), and when filters are
supplied they appear in order, each with the `{codes, variable}`
shape. -/
theorem encode_variables_key_set (data : QueryData) (query : String) :
    (((QueryData.Encode data query).lookupKey "variables").getD .null).hasKey "dataset" = true ∧
    (((QueryData.Encode data query).lookupKey "variables").getD .null).hasKey "variables" = true ∧
    (((QueryData.Encode data query).lookupKey "variables").getD .null).hasKey "text" = true ∧
    ((((QueryData.Encode data query).lookupKey "variables").getD .null).hasKey "filters" = true
        ↔ data.Filters ≠ []) ∧
    (data.Filters ≠ [] →
      (((QueryData.Encode data query).lookupKey "variables").getD .null).lookupKey "filters" =
        some (.arr (data.Filters.map encodeFilter))) ∧
    (∀ f ∈ data.Filters,
      encodeFilter f = .obj [("codes", .arr (f.Codes.map .str)), ("variable", .str f.Variable)]) := by
  cases hf : data.Filters with
  | nil =>
    simp [QueryData.Encode, hf, Json.lookupKey, Json.hasKey, List.lookup]
  | cons a l =>
    simp [QueryData.Encode, hf, Json.lookupKey, Json.hasKey, List.lookup, encodeFilter,
      encodeStringList]

/-- Witness for C1 at a concrete record with one filter. -/
theorem encode_variables_key_set_witness :
    (((QueryData.Encode ⟨"d", "t", ["v"], [⟨["c"], "sex"⟩]⟩ "q").lookupKey
        "variables").getD .null).lookupKey "filters" =
      some (.arr (([⟨["c"], "sex"⟩] : List Filter).map encodeFilter)) :=
  (encode_variables_key_set ⟨"d", "t", ["v"], [⟨["c"], "sex"⟩]⟩ "q").2.2.2.2.1 (by simp)

/-- C4: when the POST to `/graphql` comes back with a non-200 status,
`postQuery` closes the response body and returns the `errorResponse`
error carrying the original status code and the error payload read
from the body. -/
theorem postQuery_non200_upstream_error (data : QueryData) (query : String)
    (r : HttpResponse) (h : r.StatusCode ≠ 200) :
    Client.postQuery data query (.res r) =
      ⟨.error (.upstreamError r.StatusCode r.Body), true⟩ := by
  simp [Client.postQuery, Client.errorResponse, h]

/-- Witness for C4 at a concrete 500 response. -/
theorem postQuery_non200_upstream_error_witness :
    Client.postQuery ⟨"d", "t", [], []⟩ "q" (.res ⟨500, "boom"⟩) =
      ⟨.error (.upstreamError 500 "boom"), true⟩ :=
  postQuery_non200_upstream_error ⟨"d", "t", [], []⟩ "q" ⟨500, "boom"⟩ (by decide)

/-- C5: the dataset-list normalizer returns exactly the `name` of each
`edges[].node` in response order (no re-ordering, additions or
omissions), and on the sample response carrying `dataset 1` and
`dataset 2` it returns exactly those names in that order. -/
theorem listDatasets_order_preserved :
    (∀ (resp : Gql.DatasetVariables) (i : Nat),
        (ListDatasets resp)[i]? = (resp.Variables.Edges[i]?).map (fun e => e.Node.Name)) ∧
    (∀ resp : Gql.DatasetVariables,
        (ListDatasets resp).length = resp.Variables.Edges.length) ∧
    decodeDatasetVariables sampleDatasetListJson = .ok sampleDatasetListDecoded ∧
    ListDatasets sampleDatasetListDecoded = ["dataset 1", "dataset 2"] := by
  refine ⟨?_, ?_, by rfl, by rfl⟩
  · intro resp i
    simp [ListDatasets]
  · intro resp
    simp [ListDatasets]

/-- C8: a request carrying neither a Florence token nor a service auth
token makes `CheckRequest` return the request's own context, status
200 and no error, with zero outbound calls to the auth API. -/
theorem checkRequest_no_tokens_passthrough (req : Request) (api : TransportResult)
    (hf : headerGet req.Headers FlorenceHeaderKey = "")
    (ha : headerGet req.Headers AuthHeaderKey = "") :
    IdentityClient.CheckRequest req api = (⟨some req.Ctx, 200, none⟩, 0) := by
  simp [IdentityClient.CheckRequest, hf, ha]

/-- Witness for C8: empty header set, auth API down — still a local
200 pass-through with no outbound call. -/
theorem checkRequest_no_tokens_passthrough_witness :
    IdentityClient.CheckRequest ⟨[], [("k", "v")]⟩ (.err "down") =
      (⟨some [("k", "v")], 200, none⟩, 0) :=
  checkRequest_no_tokens_passthrough ⟨[], [("k", "v")]⟩ (.err "down") rfl rfl

/-- C9: `Stream` returns nil exactly when both the transformer and the
consumer returned nil; exactly one error is wrapped alone; two errors
are reported in a single combined error. -/
theorem stream_error_combination (et ec : Option String) :
    (Stream et ec = none ↔ et = none ∧ ec = none) ∧
    (∀ e, et = some e → ec = none → Stream et ec = some ("transform error: " ++ e)) ∧
    (∀ e, ec = some e → et = none → Stream et ec = some ("consumer error: " ++ e)) ∧
    (∀ e1 e2, et = some e1 → ec = some e2 →
      Stream et ec = some ("transform error: " ++ e1 ++ ", consumer error: " ++ e2)) := by
  cases et <;> cases ec <;> simp [Stream]

/-- Witness for C9 at a concrete transform error. -/
theorem stream_error_combination_witness :
    Stream (some "a") none = some ("transform error: " ++ "a") :=
  (stream_error_combination (some "a") none).2.1 "a" rfl rfl

/-- C10: a 200 codebook response with a zero-byte body never decodes:
the body is replaced by the placeholder text `[response body empty]`,
which fails JSON unmarshalling, so `GetCodebook` returns the decode
error (and, being an error, no response). -/
theorem getCodebook_empty_body_errors (req : GetCodebookRequest) :
    Client.GetCodebook req (.res ⟨200, ""⟩) =
      .error (.decodeFailed 500
        ("failed to unmarshal response body: " ++ "invalid character at start of JSON value")
        "[response body empty]") := by
  rfl


/-- C2: a query call that gets a 200 transport status but whose
well-formed JSON body carries the GraphQL-level `error` field fails
with `GraphQLError` carrying the message — it never returns as a
generic decode success. -/
theorem staticDatasetQuery_graphql_error (data : QueryData) (query : String)
    (r : HttpResponse) (j : Json) (resp : GraphQLResponseBody) (msg : String)
    (hs : r.StatusCode = 200)
    (hp : Json.parse r.Body = .ok j)
    (hd : decodeGraphQLResponseBody j = .ok resp)
    (hm : resp.Data.Dataset.Table.Error = msg)
    (hne : msg ≠ "") :
    Client.StaticDatasetQueryCall data query (.res r) = .error (.graphQLError msg) := by
  unfold Client.StaticDatasetQueryCall Client.queryUnmarshal Client.postQuery
  simp [hs, hp, hd, hm, hne]

/-- Witness for C2: a concrete 200 body whose `table.error` is set. -/
theorem staticDatasetQuery_graphql_error_witness :
    Client.StaticDatasetQueryCall ⟨"d", "t", [], []⟩ "q"
        (.res ⟨200, sampleGraphQLErrorBody⟩) =
      .error (.graphQLError "oops") :=
  staticDatasetQuery_graphql_error ⟨"d", "t", [], []⟩ "q" ⟨200, sampleGraphQLErrorBody⟩
    (.obj [("data", .obj [("dataset", .obj [("table", .obj [("error", .str "oops")])])])])
    ⟨⟨⟨⟨[], [], "oops"⟩⟩⟩⟩ "oops" rfl (by rfl) (by rfl) rfl (by decide)

/-- C6 counterexample: `GetDatasetLandingPage`, fed a body whose
`relatedDocuments` has the wrong JSON type, returns the error
*together with* a landing page that already carries the decoded
`relatedDatasets` entry — a partial result alongside the error, so an
error cannot be treated as the call having had no effect. -/
theorem getDatasetLandingPage_partial_result_counterexample :
    Client.GetDatasetLandingPage (.ok sampleBadLandingPageBody) (fun _ => "") =
      (⟨[⟨"u1", ""⟩], [], [], []⟩,
       some "cannot unmarshal JSON value into a slice of zebedee.Related") ∧
    (⟨[⟨"u1", ""⟩], [], [], []⟩ : DatasetLandingPage) ≠ DatasetLandingPage.zero :=
  ⟨by rfl, by decide⟩

/-- C6 amended: whenever `GetDatasetLandingPage` returns an error, the
accompanying value is the zero landing page — except on the JSON
unmarshal path, where (as its own doc comment warns) the partially
decoded landing page accompanies the error; the cantabular pipeline
(`postQuery`, `queryUnmarshal`) returns `Except` outcomes, so an error
there carries no result by construction. -/
theorem getDatasetLandingPage_error_paths (fetch : Except String String)
    (titleOf : String → String) (e : String)
    (he : (Client.GetDatasetLandingPage fetch titleOf).2 = some e) :
    (Client.GetDatasetLandingPage fetch titleOf).1 = DatasetLandingPage.zero ∨
    (∃ b j, fetch = .ok b ∧ Json.parse b = .ok j ∧
      (unmarshalDatasetLandingPage j).2 = some e ∧
      (Client.GetDatasetLandingPage fetch titleOf).1 = (unmarshalDatasetLandingPage j).1) := by
  cases fetch with
  | error e2 =>
    left
    simp [Client.GetDatasetLandingPage]
  | ok b =>
    cases hp : Json.parse b with
    | error e2 =>
      left
      simp [Client.GetDatasetLandingPage, hp]
    | ok j =>
      cases hu : unmarshalDatasetLandingPage j with
      | mk dlp err =>
        cases err with
        | none =>
          simp [Client.GetDatasetLandingPage, hp, hu] at he
        | some e2 =>
          right
          have he2 : e2 = e := by
            simpa [Client.GetDatasetLandingPage, hp, hu] using he
          exact ⟨b, j, rfl, hp, by simp [hu, he2], by simp [Client.GetDatasetLandingPage, hp, hu]⟩

/-- Witness for the C6 amended theorem: a fetch error yields the zero
landing page. -/
theorem getDatasetLandingPage_error_paths_witness :
    (Client.GetDatasetLandingPage (.error "gone") (fun _ => "")).1 =
        DatasetLandingPage.zero ∨
    (∃ b j, (Except.error "gone" : Except String String) = .ok b ∧ Json.parse b = .ok j ∧
      (unmarshalDatasetLandingPage j).2 = some "gone" ∧
      (Client.GetDatasetLandingPage (.error "gone") (fun _ => "")).1 =
        (unmarshalDatasetLandingPage j).1) :=
  getDatasetLandingPage_error_paths (.error "gone") (fun _ => "") "gone" (by rfl)


/-! ### Invariants of the bounded fan-out -/


theorem fanInv_init (N : Nat) (val : Nat → String) : FanInv N val FanInit := by
  refine ⟨?_, ?_, ?_, ?_, ?_, ?_, ?_⟩ <;> simp [FanInit]

theorem fanInv_step {N : Nat} {val : Nat → String} {s s2 : FanoutState}
    (h : FanInv N val s) (hs : FanStep N val s s2) : FanInv N val s2 := by
  obtain ⟨h1, h2, h3, h4, h5, h6, h7⟩ := h
  cases hs with
  | spawn hlt hcap =>
    refine ⟨?_, ?_, ?_, ?_, ?_, ?_, ?_⟩ <;> dsimp only [FanInv]
    · simp only [List.length_cons]
      omega
    · exact List.nodup_cons.mpr ⟨fun hmem => absurd (h3 _ hmem) (lt_irrefl _), h2⟩
    · intro i hi
      rcases List.mem_cons.mp hi with rfl | hmem
      · omega
      · have := h3 i hmem; omega
    · omega
    · intro i hilt hnot
      simp only [List.mem_cons, not_or] at hnot
      exact h5 i (by omega) hnot.2
    · intro i hge
      exact h6 i (by omega)
    · intro hr
      have := h7 hr
      omega
  | finish i hi =>
    refine ⟨?_, ?_, ?_, ?_, ?_, ?_, ?_⟩ <;> dsimp only [FanInv]
    · calc (s.active.erase i).length ≤ s.active.length := List.length_erase_le i s.active
        _ ≤ 10 := h1
    · exact h2.erase i
    · intro j hj
      exact h3 j (List.mem_of_mem_erase hj)
    · exact h4
    · intro j hjlt hjnot
      by_cases hji : j = i
      · subst hji
        simp
      · simp only [hji, if_false]
        refine h5 j hjlt ?_
        intro hjmem
        exact hjnot ((List.mem_erase_of_ne hji).mpr hjmem)
    · intro j hge
      have hji : j ≠ i := by
        have := h3 i hi
        omega
      simp only [hji, if_false]
      exact h6 j hge
    · intro hr
      have := h7 hr
      exact absurd hi (by simp [this.2])
  | ret hsp ha hr =>
    exact ⟨h1, h2, h3, h4, h5, h6, fun _ => ⟨hsp, ha⟩⟩

theorem fanInv_reachable {N : Nat} {val : Nat → String} {s : FanoutState}
    (hr : FanReachable N val s) : FanInv N val s := by
  induction hr with
  | refl => exact fanInv_init N val
  | tail _ hstep ih => exact fanInv_step ih hstep

/-- C7: for every entry count `N` and every per-unit outcome oracle
`val` (so in particular whatever failures individual units meet), the
fan-out (i) never has more than 10 units in flight, (ii) can only pass
the `wg.Wait()` join once the loop has spawned all `N` units, all have
finished and every slot `i < N` holds its unit's value — so all `N`
entries end up enriched, (iii) is never stuck before returning — some
unit can finish, the loop can spawn, or the join can complete,
whatever any sibling unit did — and (iv) strictly decreases the
`fanMeasure` on every step, so the call blocks only finitely long and
every maximal execution ends in the full join. -/
theorem fanout_bounded_complete_join (N : Nat) (val : Nat → String) :
    (∀ s, FanReachable N val s → s.active.length ≤ 10) ∧
    (∀ s, FanReachable N val s → s.returned = true →
      s.spawned = N ∧ s.active = [] ∧ ∀ i, i < N → s.titles i = some (val i)) ∧
    (∀ s, FanReachable N val s → s.returned = false → ∃ s2, FanStep N val s s2) ∧
    (∀ s s2, FanStep N val s s2 → fanMeasure N s2 < fanMeasure N s) := by
  refine ⟨?_, ?_, ?_, ?_⟩
  · intro s hr
    exact (fanInv_reachable hr).1
  · intro s hr hret
    obtain ⟨h1, h2, h3, h4, h5, h6, h7⟩ := fanInv_reachable hr
    obtain ⟨hsp, hact⟩ := h7 hret
    refine ⟨hsp, hact, ?_⟩
    intro i hiN
    exact h5 i (by omega) (by simp [hact])
  · intro s hr hret
    obtain ⟨h1, h2, h3, h4, h5, h6, h7⟩ := fanInv_reachable hr
    cases ha : s.active with
    | cons i rest =>
      exact ⟨_, .finish s i (by simp [ha])⟩
    | nil =>
      by_cases hsp : s.spawned < N
      · exact ⟨_, .spawn s hsp (by simp [ha])⟩
      · exact ⟨_, .ret s (by omega) ha hret⟩
  · intro s s2 hstep
    cases hstep with
    | spawn hlt hcap =>
      dsimp only [fanMeasure]
      simp only [List.length_cons]
      omega
    | finish i hi =>
      have hlen : 0 < s.active.length := List.length_pos_of_mem hi
      have herase := List.length_erase_of_mem hi
      dsimp only [fanMeasure]
      simp only [herase]
      omega
    | ret hsp ha hr =>
      dsimp only [fanMeasure]
      rw [hr]
      simp

/-- Witness for C7 at eleven entries (more than the worker cap): the
initial state is reachable, within the bound, and can step. -/
theorem fanout_bounded_complete_join_witness :
    FanInit.active.length ≤ 10 ∧ ∃ s2, FanStep 11 (fun _ => "title") FanInit s2 :=
  ⟨(fanout_bounded_complete_join 11 (fun _ => "title")).1 FanInit .refl,
   (fanout_bounded_complete_join 11 (fun _ => "title")).2.2.1 FanInit .refl rfl⟩


theorem jsonWeight_pos (j : Json) : 1 ≤ jsonWeight j := by
  cases j <;> simp [jsonWeight]

theorem weightFields_pos (fields : List (String × Json)) : 1 ≤ weightFields fields := by
  cases fields <;> simp [weightFields] <;> omega

theorem weightItems_pos (items : List Json) : 1 ≤ weightItems items := by
  cases items <;> simp [weightItems] <;> omega

theorem jsonWeight_lookup_le (fields : List (String × Json)) (k : String) :
    ∀ v, fields.lookup k = some v → jsonWeight v ≤ weightFields fields := by
  induction fields with
  | nil => intro v h; simp [List.lookup] at h
  | cons p rest ih =>
    intro v h
    simp only [List.lookup] at h
    by_cases hk : k == p.1
    · simp [hk] at h
      subst h
      simp [weightFields]
      omega
    · simp [hk] at h
      have := ih v h
      simp [weightFields]
      omega

theorem jsonWeight_getField_le (fields : List (String × Json)) (k : String) :
    jsonWeight (getField fields k) ≤ weightFields fields := by
  unfold getField
  cases h : fields.lookup k with
  | none =>
    have := weightFields_pos fields
    simpa [jsonWeight] using this
  | some v =>
    simpa using jsonWeight_lookup_le fields k v h

theorem weightItems_le_of_mem (items : List Json) (j : Json) (h : j ∈ items) :
    jsonWeight j < weightItems items := by
  induction items with
  | nil => simp at h
  | cons a rest ih =>
    rcases List.mem_cons.mp h with rfl | h2
    · simp [weightItems]; omega
    · have := ih h2
      simp [weightItems]
      omega

/-! ### Decoding succeeds on every catalog response shape (C3 lemmas) -/

theorem decodeString_ok {j : Json} (h : StrShape j) : ∃ s, decodeString j = .ok s := by
  rcases h with rfl | ⟨s, rfl⟩ <;> exact ⟨_, rfl⟩

theorem decodeInt_ok {j : Json} (h : IntShape j) : ∃ n, decodeInt j = .ok n := by
  rcases h with rfl | ⟨n, rfl⟩ <;> exact ⟨_, rfl⟩

theorem lookup_mem {fields : List (String × Json)} {k : String} {v : Json}
    (h : fields.lookup k = some v) : (k, v) ∈ fields := by
  induction fields with
  | nil => simp [List.lookup] at h
  | cons p rest ih =>
    simp only [List.lookup] at h
    by_cases hk : k == p.1
    · simp [hk] at h
      have hkeq : k = p.1 := by simpa using hk
      cases p with
      | mk a b =>
        simp at hkeq
        subst hkeq
        simp [hk] at h
        simp [h]
    · simp [hk] at h
      exact List.mem_cons_of_mem _ (ih h)

theorem getField_keys_null {fields : List (String × Json)} {allowed : List String}
    (hall : ∀ kv ∈ fields, kv.1 ∈ allowed) {k : String} (hk : k ∉ allowed) :
    getField fields k = .null := by
  unfold getField
  cases h : fields.lookup k with
  | none => rfl
  | some v => exact absurd (hall _ (lookup_mem h)) hk

theorem getField_keys_one_null {fields : List (String × Json)} {a : String}
    (hall : ∀ kv ∈ fields, kv.1 = a) {k : String} (hk : k ≠ a) :
    getField fields k = .null := by
  unfold getField
  cases h : fields.lookup k with
  | none => rfl
  | some v => exact absurd (hall _ (lookup_mem h)) hk

theorem getField_str {fields : List (String × Json)}
    (h : ∀ kv ∈ fields, StrShape kv.2) (k : String) : StrShape (getField fields k) := by
  unfold getField
  cases hh : fields.lookup k with
  | none => exact Or.inl rfl
  | some v => exact h _ (lookup_mem hh)

theorem decodeNodeF_null {f : Nat} (hf : 1 ≤ f) :
    decodeNodeF f .null = .ok Gql.Node.zero := by
  obtain ⟨g, rfl⟩ : ∃ g, f = g + 1 := ⟨f - 1, by omega⟩
  rfl

theorem decodeCategoriesF_null {f : Nat} (hf : 1 ≤ f) :
    decodeCategoriesF f .null = .ok Gql.Categories.zero := by
  obtain ⟨g, rfl⟩ : ∃ g, f = g + 1 := ⟨f - 1, by omega⟩
  rfl

theorem decodeSearchF_null {f : Nat} (hf : 1 ≤ f) :
    decodeSearchF f .null = .ok Gql.Search.zero := by
  obtain ⟨g, rfl⟩ : ∃ g, f = g + 1 := ⟨f - 1, by omega⟩
  rfl

theorem decodeEdgeListF_null {f : Nat} (hf : 1 ≤ f) :
    decodeEdgeListF f .null = .ok [] := by
  obtain ⟨g, rfl⟩ : ∃ g, f = g + 1 := ⟨f - 1, by omega⟩
  rfl

theorem decodeVariablesListF_null {f : Nat} (hf : 1 ≤ f) :
    decodeVariablesListF f .null = .ok [] := by
  obtain ⟨g, rfl⟩ : ∃ g, f = g + 1 := ⟨f - 1, by omega⟩
  rfl

theorem decodeVariablesF_null {f : Nat} (hf : 1 ≤ f) :
    decodeVariablesF f .null = .ok Gql.Variables.zero := by
  obtain ⟨g, rfl⟩ : ∃ g, f = g + 1 := ⟨f - 1, by omega⟩
  rfl


theorem fuel_succ_of_obj {fields : List (String × Json)} {fuel : Nat}
    (hw : jsonWeight (.obj fields) ≤ fuel) :
    ∃ f, fuel = f + 1 ∧ weightFields fields ≤ f ∧ 1 ≤ f := by
  have h1 := weightFields_pos fields
  have h2 : 1 + weightFields fields ≤ fuel := by simpa [jsonWeight] using hw
  exact ⟨fuel - 1, by omega, by omega, by omega⟩

theorem fuel_succ_of_arr {items : List Json} {fuel : Nat}
    (hw : jsonWeight (.arr items) ≤ fuel) :
    ∃ f, fuel = f + 1 ∧ weightItems items ≤ f := by
  have h2 : 1 + weightItems items ≤ fuel := by simpa [jsonWeight] using hw
  exact ⟨fuel - 1, by omega, by omega⟩

theorem fuel_succ_of_null {fuel : Nat} (hw : jsonWeight .null ≤ fuel) : 1 ≤ fuel := by
  simpa [jsonWeight] using hw

theorem getField_fuel {fields : List (String × Json)} {f : Nat}
    (hwf : weightFields fields ≤ f) (k : String) :
    jsonWeight (getField fields k) ≤ f :=
  le_trans (jsonWeight_getField_le fields k) hwf

theorem decodeEdgeF_shape_ok (P : Json → Prop)
    (hP : ∀ fuel j, jsonWeight j ≤ fuel → P j → ∃ v, decodeNodeF fuel j = .ok v) :
    ∀ fuel j, jsonWeight j ≤ fuel → EdgeShape P j → ∃ v, decodeEdgeF fuel j = .ok v := by
  intro fuel j hw h
  rcases h with rfl | ⟨fields, rfl, hkeys, hnode⟩
  · obtain ⟨g, rfl⟩ : ∃ g, fuel = g + 1 := ⟨fuel - 1, by have := fuel_succ_of_null hw; omega⟩
    exact ⟨_, rfl⟩
  · obtain ⟨f, rfl, hwf, hf1⟩ := fuel_succ_of_obj hw
    obtain ⟨n, hn⟩ := hP f _ (getField_fuel hwf "node") hnode
    exact ⟨.mk n, by simp [decodeEdgeF, hn, Bind.bind, Except.bind]⟩

theorem decodeEdgeItemsF_shape_ok (P : Json → Prop)
    (hP : ∀ fuel j, jsonWeight j ≤ fuel → P j → ∃ v, decodeNodeF fuel j = .ok v) :
    ∀ (items : List Json) (fuel : Nat), weightItems items ≤ fuel →
      (∀ x ∈ items, EdgeShape P x) → ∃ v, decodeEdgeItemsF fuel items = .ok v := by
  intro items
  induction items with
  | nil =>
    intro fuel hw _
    have h1 : (1 : Nat) ≤ fuel := by simpa [weightItems] using hw
    obtain ⟨g, rfl⟩ : ∃ g, fuel = g + 1 := ⟨fuel - 1, by omega⟩
    exact ⟨_, rfl⟩
  | cons a rest ih =>
    intro fuel hw hall
    have hwa0 := jsonWeight_pos a
    have hwr0 := weightItems_pos rest
    have hcons : 1 + jsonWeight a + weightItems rest ≤ fuel := by
      simpa [weightItems] using hw
    obtain ⟨f, rfl⟩ : ∃ g, fuel = g + 1 := ⟨fuel - 1, by omega⟩
    obtain ⟨e, he⟩ := decodeEdgeF_shape_ok P hP f a (by omega) (hall a (by simp))
    obtain ⟨es, hes⟩ := ih f (by omega) (fun x hx => hall x (by simp [hx]))
    exact ⟨e :: es, by simp [decodeEdgeItemsF, he, hes, Bind.bind, Except.bind]⟩

theorem decodeEdgeListF_shape_ok (P : Json → Prop)
    (hP : ∀ fuel j, jsonWeight j ≤ fuel → P j → ∃ v, decodeNodeF fuel j = .ok v) :
    ∀ fuel j, jsonWeight j ≤ fuel → EdgeListShape P j →
      ∃ v, decodeEdgeListF fuel j = .ok v := by
  intro fuel j hw h
  rcases h with rfl | ⟨items, rfl, hall⟩
  · exact ⟨_, decodeEdgeListF_null (fuel_succ_of_null hw)⟩
  · obtain ⟨f, rfl, hwi⟩ := fuel_succ_of_arr hw
    obtain ⟨v, hv⟩ := decodeEdgeItemsF_shape_ok P hP items f hwi hall
    exact ⟨v, by simp [decodeEdgeListF, hv]⟩

theorem decodeNodeF_leaf_ok (allowed : List String)
    (hc : "categories" ∉ allowed) (hm : "mapFrom" ∉ allowed) (hv : "variable" ∉ allowed) :
    ∀ fuel j, jsonWeight j ≤ fuel → LeafNodeShape allowed j →
      ∃ v, decodeNodeF fuel j = .ok v := by
  intro fuel j hw h
  rcases h with rfl | ⟨fields, rfl, hkeys, hstr⟩
  · exact ⟨_, decodeNodeF_null (fuel_succ_of_null hw)⟩
  · obtain ⟨f, rfl, hwf, hf1⟩ := fuel_succ_of_obj hw
    obtain ⟨s1, h1⟩ := decodeString_ok (getField_str hstr "name")
    obtain ⟨s2, h2⟩ := decodeString_ok (getField_str hstr "code")
    obtain ⟨s3, h3⟩ := decodeString_ok (getField_str hstr "label")
    obtain ⟨s4, h4⟩ := decodeString_ok (getField_str hstr "filterOnly")
    have hcats : getField fields "categories" = .null := getField_keys_null hkeys hc
    have hmap : getField fields "mapFrom" = .null := getField_keys_null hkeys hm
    have hvar : getField fields "variable" = .null := getField_keys_null hkeys hv
    exact ⟨.mk s1 s2 s3 Gql.Categories.zero [] s4 ⟨""⟩,
      by simp [decodeNodeF, h1, h2, h3, h4, hcats, hmap, hvar,
        decodeCategoriesF_null hf1, decodeVariablesListF_null hf1, decodeVariable,
        Bind.bind, Except.bind]⟩

theorem decodeCategoriesF_cat_ok :
    ∀ fuel j, jsonWeight j ≤ fuel → CatTotShape j →
      ∃ v, decodeCategoriesF fuel j = .ok v := by
  intro fuel j hw h
  rcases h with rfl | ⟨fields, rfl, hkeys, htot⟩
  · exact ⟨_, decodeCategoriesF_null (fuel_succ_of_null hw)⟩
  · obtain ⟨f, rfl, hwf, hf1⟩ := fuel_succ_of_obj hw
    obtain ⟨n, hn⟩ := decodeInt_ok htot
    have hedges : getField fields "edges" = .null :=
      getField_keys_one_null hkeys (by decide)
    exact ⟨.mk n [], by simp [decodeCategoriesF, hn, hedges, decodeEdgeListF_null hf1,
      Bind.bind, Except.bind]⟩

theorem decodeVariablesF_mapvars_ok :
    ∀ fuel j, jsonWeight j ≤ fuel → MapFromVarsShape j →
      ∃ v, decodeVariablesF fuel j = .ok v := by
  intro fuel j hw h
  rcases h with rfl | ⟨fields, rfl, hkeys, hedges, htot⟩
  · exact ⟨_, decodeVariablesF_null (fuel_succ_of_null hw)⟩
  · obtain ⟨f, rfl, hwf, hf1⟩ := fuel_succ_of_obj hw
    obtain ⟨es, hes⟩ := decodeEdgeListF_shape_ok _
      (decodeNodeF_leaf_ok ["filterOnly", "label", "name"]
        (by decide) (by decide) (by decide))
      f _ (getField_fuel hwf "edges") hedges
    have hsearch : getField fields "search" = .null :=
      getField_keys_null hkeys (by decide)
    have hcsearch : getField fields "categorySearch" = .null :=
      getField_keys_null hkeys (by decide)
    exact ⟨.mk es Gql.Search.zero Gql.Search.zero,
      by simp [decodeVariablesF, hes, hsearch, hcsearch,
        decodeSearchF_null hf1, Bind.bind, Except.bind]⟩

theorem decodeVariablesItemsF_mapfrom_ok :
    ∀ (items : List Json) (fuel : Nat), weightItems items ≤ fuel →
      (∀ x ∈ items, MapFromVarsShape x) →
      ∃ v, decodeVariablesItemsF fuel items = .ok v := by
  intro items
  induction items with
  | nil =>
    intro fuel hw _
    have h1 : (1 : Nat) ≤ fuel := by simpa [weightItems] using hw
    obtain ⟨g, rfl⟩ : ∃ g, fuel = g + 1 := ⟨fuel - 1, by omega⟩
    exact ⟨_, rfl⟩
  | cons a rest ih =>
    intro fuel hw hall
    have hwa0 := jsonWeight_pos a
    have hwr0 := weightItems_pos rest
    have hcons : 1 + jsonWeight a + weightItems rest ≤ fuel := by
      simpa [weightItems] using hw
    obtain ⟨f, rfl⟩ : ∃ g, fuel = g + 1 := ⟨fuel - 1, by omega⟩
    obtain ⟨v, hv⟩ := decodeVariablesF_mapvars_ok f a (by omega) (hall a (by simp))
    obtain ⟨vs, hvs⟩ := ih f (by omega) (fun x hx => hall x (by simp [hx]))
    exact ⟨v :: vs, by simp [decodeVariablesItemsF, hv, hvs, Bind.bind, Except.bind]⟩

theorem decodeVariablesListF_mapfrom_ok :
    ∀ fuel j, jsonWeight j ≤ fuel → MapFromShape j →
      ∃ v, decodeVariablesListF fuel j = .ok v := by
  intro fuel j hw h
  rcases h with rfl | ⟨items, rfl, hall⟩
  · exact ⟨_, decodeVariablesListF_null (fuel_succ_of_null hw)⟩
  · obtain ⟨f, rfl, hwi⟩ := fuel_succ_of_arr hw
    obtain ⟨v, hv⟩ := decodeVariablesItemsF_mapfrom_ok items f hwi hall
    exact ⟨v, by simp [decodeVariablesListF, hv]⟩


theorem decodeNodeF_dim_ok :
    ∀ fuel j, jsonWeight j ≤ fuel → DimNodeShape j → ∃ v, decodeNodeF fuel j = .ok v := by
  intro fuel j hw h
  rcases h with rfl | ⟨fields, rfl, hkeys, hname, hlabel, hmap, hcat⟩
  · exact ⟨_, decodeNodeF_null (fuel_succ_of_null hw)⟩
  · obtain ⟨f, rfl, hwf, hf1⟩ := fuel_succ_of_obj hw
    obtain ⟨s1, h1⟩ := decodeString_ok hname
    obtain ⟨s3, h3⟩ := decodeString_ok hlabel
    have hcode : getField fields "code" = .null := getField_keys_null hkeys (by decide)
    have hfo : getField fields "filterOnly" = .null := getField_keys_null hkeys (by decide)
    have hvar : getField fields "variable" = .null := getField_keys_null hkeys (by decide)
    obtain ⟨cats, hcats⟩ := decodeCategoriesF_cat_ok f _ (getField_fuel hwf "categories") hcat
    obtain ⟨mf, hmf⟩ := decodeVariablesListF_mapfrom_ok f _ (getField_fuel hwf "mapFrom") hmap
    exact ⟨.mk s1 "" s3 cats mf "" ⟨""⟩,
      by simp [decodeNodeF, h1, h3, hcode, hfo, hvar, hcats, hmf, decodeVariable,
        show decodeString Json.null = Except.ok "" from rfl, Bind.bind, Except.bind]⟩

theorem decodeNodeF_search_ok :
    ∀ fuel j, jsonWeight j ≤ fuel → SearchNodeShape j → ∃ v, decodeNodeF fuel j = .ok v := by
  intro fuel j hw h
  rcases h with rfl | ⟨fields, rfl, hkeys, hname, hlabel, hmap⟩
  · exact ⟨_, decodeNodeF_null (fuel_succ_of_null hw)⟩
  · obtain ⟨f, rfl, hwf, hf1⟩ := fuel_succ_of_obj hw
    obtain ⟨s1, h1⟩ := decodeString_ok hname
    obtain ⟨s3, h3⟩ := decodeString_ok hlabel
    have hcode : getField fields "code" = .null := getField_keys_null hkeys (by decide)
    have hfo : getField fields "filterOnly" = .null := getField_keys_null hkeys (by decide)
    have hvar : getField fields "variable" = .null := getField_keys_null hkeys (by decide)
    have hcats : getField fields "categories" = .null := getField_keys_null hkeys (by decide)
    obtain ⟨mf, hmf⟩ := decodeVariablesListF_mapfrom_ok f _ (getField_fuel hwf "mapFrom") hmap
    exact ⟨.mk s1 "" s3 Gql.Categories.zero mf "" ⟨""⟩,
      by simp [decodeNodeF, h1, h3, hcode, hfo, hvar, hcats, hmf,
        decodeCategoriesF_null hf1, decodeVariable,
        show decodeString Json.null = Except.ok "" from rfl, Bind.bind, Except.bind]⟩

theorem decodeVariable_area_ok {j : Json} (h : AreaVariableShape j) :
    ∃ v, decodeVariable j = .ok v := by
  rcases h with rfl | ⟨fields, rfl, hkeys, hmap, hname⟩
  · exact ⟨_, rfl⟩
  · obtain ⟨s, hs⟩ := decodeString_ok hname
    exact ⟨⟨s⟩, by simp [decodeVariable, hs, Bind.bind, Except.bind]⟩

theorem decodeNodeF_area_ok :
    ∀ fuel j, jsonWeight j ≤ fuel → AreaNodeShape j → ∃ v, decodeNodeF fuel j = .ok v := by
  intro fuel j hw h
  rcases h with rfl | ⟨fields, rfl, hkeys, hcode, hlabel, hvar⟩
  · exact ⟨_, decodeNodeF_null (fuel_succ_of_null hw)⟩
  · obtain ⟨f, rfl, hwf, hf1⟩ := fuel_succ_of_obj hw
    obtain ⟨s2, h2⟩ := decodeString_ok hcode
    obtain ⟨s3, h3⟩ := decodeString_ok hlabel
    have hname : getField fields "name" = .null := getField_keys_null hkeys (by decide)
    have hfo : getField fields "filterOnly" = .null := getField_keys_null hkeys (by decide)
    have hcats : getField fields "categories" = .null := getField_keys_null hkeys (by decide)
    have hmap : getField fields "mapFrom" = .null := getField_keys_null hkeys (by decide)
    obtain ⟨v, hv⟩ := decodeVariable_area_ok hvar
    exact ⟨.mk "" s2 s3 Gql.Categories.zero [] "" v,
      by simp [decodeNodeF, h2, h3, hname, hfo, hcats, hmap, hv,
        decodeCategoriesF_null hf1, decodeVariablesListF_null hf1,
        show decodeString Json.null = Except.ok "" from rfl, Bind.bind, Except.bind]⟩

theorem decodeSearchF_edgesonly_ok (P : Json → Prop)
    (hP : ∀ fuel j, jsonWeight j ≤ fuel → P j → ∃ v, decodeNodeF fuel j = .ok v) :
    ∀ fuel j, jsonWeight j ≤ fuel → EdgesOnlyShape P j →
      ∃ v, decodeSearchF fuel j = .ok v := by
  intro fuel j hw h
  rcases h with rfl | ⟨fields, rfl, hkeys, hedges⟩
  · exact ⟨_, decodeSearchF_null (fuel_succ_of_null hw)⟩
  · obtain ⟨f, rfl, hwf, hf1⟩ := fuel_succ_of_obj hw
    obtain ⟨es, hes⟩ := decodeEdgeListF_shape_ok P hP f _ (getField_fuel hwf "edges") hedges
    exact ⟨.mk es, by simp [decodeSearchF, hes, Bind.bind, Except.bind]⟩

theorem decodeVariablesF_edgesonly_ok (P : Json → Prop)
    (hP : ∀ fuel j, jsonWeight j ≤ fuel → P j → ∃ v, decodeNodeF fuel j = .ok v) :
    ∀ fuel j, jsonWeight j ≤ fuel → EdgesOnlyShape P j →
      ∃ v, decodeVariablesF fuel j = .ok v := by
  intro fuel j hw h
  rcases h with rfl | ⟨fields, rfl, hkeys, hedges⟩
  · exact ⟨_, decodeVariablesF_null (fuel_succ_of_null hw)⟩
  · obtain ⟨f, rfl, hwf, hf1⟩ := fuel_succ_of_obj hw
    obtain ⟨es, hes⟩ := decodeEdgeListF_shape_ok P hP f _ (getField_fuel hwf "edges") hedges
    have hsearch : getField fields "search" = .null :=
      getField_keys_one_null hkeys (by decide)
    have hcsearch : getField fields "categorySearch" = .null :=
      getField_keys_one_null hkeys (by decide)
    exact ⟨.mk es Gql.Search.zero Gql.Search.zero,
      by simp [decodeVariablesF, hes, hsearch, hcsearch, decodeSearchF_null hf1,
        Bind.bind, Except.bind]⟩

theorem decodeVariablesF_searchvars_ok :
    ∀ fuel j, jsonWeight j ≤ fuel → SearchVariablesShape j →
      ∃ v, decodeVariablesF fuel j = .ok v := by
  intro fuel j hw h
  rcases h with rfl | ⟨fields, rfl, hkeys, hsearch⟩
  · exact ⟨_, decodeVariablesF_null (fuel_succ_of_null hw)⟩
  · obtain ⟨f, rfl, hwf, hf1⟩ := fuel_succ_of_obj hw
    have hedges : getField fields "edges" = .null :=
      getField_keys_one_null hkeys (by decide)
    have hcsearch : getField fields "categorySearch" = .null :=
      getField_keys_one_null hkeys (by decide)
    obtain ⟨sv, hsv⟩ := decodeSearchF_edgesonly_ok SearchNodeShape decodeNodeF_search_ok
      f _ (getField_fuel hwf "search") hsearch
    exact ⟨.mk [] sv Gql.Search.zero,
      by simp [decodeVariablesF, hedges, hsv, hcsearch, decodeEdgeListF_null hf1,
        decodeSearchF_null hf1, Bind.bind, Except.bind]⟩

theorem decodeVariablesF_areaiso_ok :
    ∀ fuel j, jsonWeight j ≤ fuel → AreaIsSourceOfShape j →
      ∃ v, decodeVariablesF fuel j = .ok v := by
  intro fuel j hw h
  rcases h with rfl | ⟨fields, rfl, hkeys, hcsearch⟩
  · exact ⟨_, decodeVariablesF_null (fuel_succ_of_null hw)⟩
  · obtain ⟨f, rfl, hwf, hf1⟩ := fuel_succ_of_obj hw
    have hedges : getField fields "edges" = .null :=
      getField_keys_one_null hkeys (by decide)
    have hsearch : getField fields "search" = .null :=
      getField_keys_one_null hkeys (by decide)
    obtain ⟨cs, hcs⟩ := decodeSearchF_edgesonly_ok AreaNodeShape decodeNodeF_area_ok
      f _ (getField_fuel hwf "categorySearch") hcsearch
    exact ⟨.mk [] Gql.Search.zero cs,
      by simp [decodeVariablesF, hedges, hsearch, hcs, decodeEdgeListF_null hf1,
        decodeSearchF_null hf1, Bind.bind, Except.bind]⟩

theorem decodeRuleBase_geo_ok {j : Json} (h : GeoRuleBaseShape j) :
    ∃ v, decodeRuleBase j = .ok v := by
  rcases h with rfl | ⟨fields, rfl, hkeys, hname, hiso⟩
  · exact ⟨_, rfl⟩
  · obtain ⟨s, hs⟩ := decodeString_ok hname
    obtain ⟨v, hv⟩ := decodeVariablesF_edgesonly_ok DimNodeShape decodeNodeF_dim_ok
      (jsonWeight (getField fields "isSourceOf")) _ le_rfl hiso
    have hv2 : decodeVariables (getField fields "isSourceOf") = .ok v := hv
    exact ⟨⟨v, s⟩, by simp [decodeRuleBase, hs, hv2, Bind.bind, Except.bind]⟩

theorem decodeRuleBase_area_ok {j : Json} (h : AreaRuleBaseShape j) :
    ∃ v, decodeRuleBase j = .ok v := by
  rcases h with rfl | ⟨fields, rfl, hkeys, hiso⟩
  · exact ⟨_, rfl⟩
  · have hname : getField fields "name" = .null := getField_keys_one_null hkeys (by decide)
    obtain ⟨v, hv⟩ := decodeVariablesF_areaiso_ok
      (jsonWeight (getField fields "isSourceOf")) _ le_rfl hiso
    have hv2 : decodeVariables (getField fields "isSourceOf") = .ok v := hv
    exact ⟨⟨v, ""⟩, by simp [decodeRuleBase, hname, hv2,
      show decodeString Json.null = Except.ok "" from rfl, Bind.bind, Except.bind]⟩

theorem decodeDatasetVariables_zero_of {fields : List (String × Json)}
    (hnull : getField fields "variables" = .null) :
    decodeDatasetVariables (.obj fields) = .ok ⟨Gql.Variables.zero⟩ := by
  have hz : decodeVariables (Json.null) = .ok Gql.Variables.zero := rfl
  simp [decodeDatasetVariables, hnull, hz, Bind.bind, Except.bind]

theorem decodeDatasetRuleBase_zero_of {fields : List (String × Json)}
    (hnull : getField fields "ruleBase" = .null) :
    decodeDatasetRuleBase (.obj fields) = .ok ⟨⟨Gql.Variables.zero, ""⟩⟩ := by
  simp [decodeDatasetRuleBase, hnull, decodeRuleBase, Bind.bind, Except.bind]


theorem decodeDatasetVariables_ok_of_vars {fields : List (String × Json)}
    (h : ∃ v, decodeVariables (getField fields "variables") = .ok v) :
    ∃ w, decodeDatasetVariables (.obj fields) = .ok w := by
  obtain ⟨v, hv⟩ := h
  exact ⟨⟨v⟩, by simp [decodeDatasetVariables, hv, Bind.bind, Except.bind]⟩

theorem decodeDatasetRuleBase_ok_of_rb {fields : List (String × Json)}
    (h : ∃ v, decodeRuleBase (getField fields "ruleBase") = .ok v) :
    ∃ w, decodeDatasetRuleBase (.obj fields) = .ok w := by
  obtain ⟨v, hv⟩ := h
  exact ⟨⟨v⟩, by simp [decodeDatasetRuleBase, hv, Bind.bind, Except.bind]⟩

/-- C3: every well-formed response produced by any of the six catalog
queries decodes into the generic graph shape of `gql/data.go`: both
decode targets (`DatasetVariables` and `DatasetRuleBase`) succeed on
every conformant body, fields the particular query did not select
decode to their zero values (the table-flavoured response decodes to
the zero graph value on both targets, a dimensions response leaves the
rule base at zero, a geography response leaves the variables at zero),
and within this domain decoding never fails because an optional field
is absent or empty. -/
theorem decode_superset_succeeds (j : Json) :
    ((StaticDatasetResponseShape j ∨ DimensionsResponseShape j ∨
      DimensionsByNameResponseShape j ∨ GeographyResponseShape j ∨
      DimensionsSearchResponseShape j ∨ AreasResponseShape j) →
      (∃ v, decodeDatasetVariables j = .ok v) ∧ ∃ r, decodeDatasetRuleBase j = .ok r) ∧
    (StaticDatasetResponseShape j →
      decodeDatasetVariables j = .ok ⟨Gql.Variables.zero⟩ ∧
      decodeDatasetRuleBase j = .ok ⟨⟨Gql.Variables.zero, ""⟩⟩) ∧
    (DimensionsResponseShape j →
      decodeDatasetRuleBase j = .ok ⟨⟨Gql.Variables.zero, ""⟩⟩) ∧
    (GeographyResponseShape j →
      decodeDatasetVariables j = .ok ⟨Gql.Variables.zero⟩) := by
  have hstatic : StaticDatasetResponseShape j →
      decodeDatasetVariables j = .ok ⟨Gql.Variables.zero⟩ ∧
      decodeDatasetRuleBase j = .ok ⟨⟨Gql.Variables.zero, ""⟩⟩ := by
    intro h
    rcases h with rfl | ⟨fields, rfl, hkeys, _⟩
    · exact ⟨rfl, rfl⟩
    · exact ⟨decodeDatasetVariables_zero_of (getField_keys_one_null hkeys (by decide)),
        decodeDatasetRuleBase_zero_of (getField_keys_one_null hkeys (by decide))⟩
  have hdims_rb : DimensionsResponseShape j →
      decodeDatasetRuleBase j = .ok ⟨⟨Gql.Variables.zero, ""⟩⟩ := by
    intro h
    rcases h with rfl | ⟨fields, rfl, hkeys, _⟩
    · rfl
    · exact decodeDatasetRuleBase_zero_of (getField_keys_one_null hkeys (by decide))
  have hgeo_dv : GeographyResponseShape j →
      decodeDatasetVariables j = .ok ⟨Gql.Variables.zero⟩ := by
    intro h
    rcases h with rfl | ⟨fields, rfl, hkeys, _⟩
    · rfl
    · exact decodeDatasetVariables_zero_of (getField_keys_one_null hkeys (by decide))
  refine ⟨?_, hstatic, hdims_rb, hgeo_dv⟩
  intro h
  rcases h with h | h | h | h | h | h
  · obtain ⟨h1, h2⟩ := hstatic h
    exact ⟨⟨_, h1⟩, ⟨_, h2⟩⟩
  · refine ⟨?_, ⟨_, hdims_rb h⟩⟩
    rcases h with rfl | ⟨fields, rfl, hkeys, hvars⟩
    · exact ⟨_, rfl⟩
    · exact decodeDatasetVariables_ok_of_vars
        (decodeVariablesF_edgesonly_ok DimNodeShape decodeNodeF_dim_ok
          (jsonWeight (getField fields "variables")) _ le_rfl hvars)
  · refine ⟨?_, ⟨_, hdims_rb h⟩⟩
    rcases h with rfl | ⟨fields, rfl, hkeys, hvars⟩
    · exact ⟨_, rfl⟩
    · exact decodeDatasetVariables_ok_of_vars
        (decodeVariablesF_edgesonly_ok DimNodeShape decodeNodeF_dim_ok
          (jsonWeight (getField fields "variables")) _ le_rfl hvars)
  · refine ⟨⟨_, hgeo_dv h⟩, ?_⟩
    rcases h with rfl | ⟨fields, rfl, hkeys, hrb⟩
    · exact ⟨_, rfl⟩
    · exact decodeDatasetRuleBase_ok_of_rb (decodeRuleBase_geo_ok hrb)
  · constructor
    · rcases h with rfl | ⟨fields, rfl, hkeys, hvars⟩
      · exact ⟨_, rfl⟩
      · exact decodeDatasetVariables_ok_of_vars
          (decodeVariablesF_searchvars_ok
            (jsonWeight (getField fields "variables")) _ le_rfl hvars)
    · rcases h with rfl | ⟨fields, rfl, hkeys, hvars⟩
      · exact ⟨_, rfl⟩
      · exact ⟨_, decodeDatasetRuleBase_zero_of (getField_keys_one_null hkeys (by decide))⟩
  · constructor
    · rcases h with rfl | ⟨fields, rfl, hkeys, hrb⟩
      · exact ⟨_, rfl⟩
      · exact ⟨_, decodeDatasetVariables_zero_of (getField_keys_one_null hkeys (by decide))⟩
    · rcases h with rfl | ⟨fields, rfl, hkeys, hrb⟩
      · exact ⟨_, rfl⟩
      · exact decodeDatasetRuleBase_ok_of_rb (decodeRuleBase_area_ok hrb)

theorem sampleDatasetListJson_dims_shape :
    DimensionsResponseShape sampleDatasetListJson := by
  simp [DimensionsResponseShape, sampleDatasetListJson, EdgesOnlyShape,
    EdgeListShape, EdgeShape, DimNodeShape, StrShape, MapFromShape, CatTotShape,
    getField, List.lookup]

/-- Witness for C3 at the sample dimensions-flavoured response. -/
theorem decode_superset_succeeds_witness :
    (∃ v, decodeDatasetVariables sampleDatasetListJson = .ok v) ∧
    ∃ r, decodeDatasetRuleBase sampleDatasetListJson = .ok r :=
  (decode_superset_succeeds sampleDatasetListJson).1
    (Or.inr (Or.inl sampleDatasetListJson_dims_shape))

end DpApiClients
